import Mathlib

/-!
A verification development for the `tg_ml_scraper` repository: a shallow
embedding in Lean 4 of its link classifier (`extractors.py`), reaction
extraction (`extractors.py`), SQLite persistence layer (`db.py`), scrape
loop (`service.py`) and ranking/report engine (`reporting.py`), together
with theorems settling the specification claims about those components.

Modelling conventions:
* Python strings are Lean `String` / `List Char`; Python `int` is `Int`
  (`Nat` for row ids); Python `None`-able values are `Option`.
* Calendar dates and timestamps are modelled as integers.  Timestamps are
  minutes since an epoch; a calendar date is the floor of a timestamp
  divided by 1440 (minutes per day).  The repository stores dates and UTC
  datetimes as ISO-8601 strings and compares them with SQLite string
  comparison, which on such strings coincides with chronological order,
  so integer comparison is an order-faithful model.
* Python `dict` values built by repeated `d[k] = v` assignment are
  modelled as association lists with an overwrite-or-append update.
* Fallible operations (a Python `raise`) return `Option`/`Except`.
-/

/-! ## extractors.py -/

/-- `RESEARCH_HOST_SUFFIXES` from `extractors.py` (same order). -/
def RESEARCH_HOST_SUFFIXES : List String :=
  ["arxiv.org", "openreview.net", "aclanthology.org", "proceedings.mlr.press",
   "jmlr.org", "paperswithcode.com", "ieeexplore.ieee.org", "link.springer.com",
   "sciencedirect.com", "nature.com", "science.org", "doi.org"]

/-- `TELEGRAM_HOST_SUFFIXES` from `extractors.py` (same order). -/
def TELEGRAM_HOST_SUFFIXES : List String :=
  ["t.me", "telegram.me", "telegram.dog", "telegram.org"]

/-- Characters allowed in a URL scheme by `urllib.parse`
(`scheme_chars`: ASCII letters, digits, and the three punctuation marks). -/
def isSchemeChar (c : Char) : Bool :=
  c.isAlpha || c.isDigit || c == '+' || c == '-' || c == '.'

/-- `urllib.parse.urlsplit` removes ASCII tab, CR and LF from the URL
before parsing (`_UNSAFE_URL_BYTES_TO_REMOVE`). -/
def removeUnsafeUrlChars (s : List Char) : List Char :=
  s.filter (fun c => !(c == '\t' || c == '\r' || c == '\n'))

/-- Scheme splitting in `urllib.parse.urlsplit`: if the part before the
first `:` is nonempty, starts with an ASCII letter, and consists of scheme
characters, the scheme and the colon are dropped. -/
def dropUrlScheme (s : List Char) : List Char :=
  match s.span (fun c => c != ':') with
  | (before, ':' :: rest) =>
      match before with
      | [] => s
      | c0 :: _ =>
          if c0.isAlpha && before.all isSchemeChar then rest else s
  | _ => s

/-- After scheme splitting, `urlsplit` reads a network location only when
the remainder starts with `//`; the netloc then extends to the first of
`/`, `?` or `#` (`_splitnetloc`). -/
def netlocChars (s : List Char) : List Char :=
  match s with
  | '/' :: '/' :: rest =>
      rest.takeWhile (fun c => c != '/' && c != '?' && c != '#')
  | _ => []

/-- `(urlparse(url).netloc or "").lower()` as computed at the top of
`classify_link` in `extractors.py`, restricted to URLs on which `urlsplit`
does not raise and that carry no leading control characters; the exact
model including `urlsplit`'s left-strip and its `ValueError` path is
`hostOrRaise` below. -/
def hostOf (url : String) : List Char :=
  (netlocChars (dropUrlScheme (removeUnsafeUrlChars url.data))).map Char.toLower

/-- Python substring containment `needle in hay`. -/
def containsSub (needle : List Char) : List Char → Bool
  | [] => needle.isEmpty
  | c :: rest => needle.isPrefixOf (c :: rest) || containsSub needle rest

/-- One iteration of the suffix loops in `classify_link`:
`host == suffix or host.endswith("." + suffix)`. -/
def hostMatchesSuffix (host : List Char) (suffix : String) : Bool :=
  host == suffix.data || ('.' :: suffix.data).isSuffixOf host

/-- The decision cascade of `classify_link` over the extracted,
lowercased host. -/
def classifyHost (host : List Char) : String :=
  if containsSub "github.com".data host then "github"
  else if TELEGRAM_HOST_SUFFIXES.any (fun s => hostMatchesSuffix host s) then "telegram"
  else if RESEARCH_HOST_SUFFIXES.any (fun s => hostMatchesSuffix host s) then "research"
  else if !host.isEmpty then "article"
  else "other"

/-- `classify_link` from `extractors.py`: extract and lowercase the host,
then run the decision cascade.  This is the total restriction to URLs on
which `urlparse` does not raise, as consumed by `links_with_types`;
`classify_link_checked` below models the `ValueError` path as well. -/
def classify_link (url : String) : String :=
  classifyHost (hostOf url)

/-- `links_with_types` from `extractors.py`. -/
def links_with_types (urls : List String) : List (String × String) :=
  urls.map (fun url => (url, classify_link url))

/-- A Telethon reaction object as probed by `extract_reactions`:
`emoticon` and `document_id` attributes (absent/None modelled as `none`;
note `emoticon or ...` also treats the empty string as absent and
`if document_id` treats `0` as absent), plus its `str(...)` rendering. -/
structure ReactionObj where
  emoticon : Option String
  document_id : Option Nat
  reprText : String
  deriving DecidableEq, Repr

/-- One element of `message.reactions.results`: a reaction (possibly
`None`) and its count. -/
structure ReactionItem where
  reaction : Option ReactionObj
  count : Int
  deriving DecidableEq, Repr

/-- `message.reactions`: `results` is the reaction-count list. -/
structure MessageReactions where
  results : List ReactionItem
  deriving DecidableEq, Repr

/-- The fields of a Telethon message consumed by `extract_reactions`. -/
structure MsgForReactions where
  reactions : Option MessageReactions
  deriving DecidableEq, Repr

/-- The key computed for one reaction item in `extract_reactions`:
`key = emoticon or (f"custom_{document_id}" if document_id else str(reaction_obj))`,
with `key = "unknown"` when the item has no reaction object. -/
def reactionCustomKey (r : ReactionObj) : String :=
  match r.document_id with
  | some d => if d == 0 then r.reprText else "custom_" ++ toString d
  | none => r.reprText

def reactionKey (item : ReactionItem) : String :=
  match item.reaction with
  | none => "unknown"
  | some r =>
      match r.emoticon with
      | some e => if e == "" then reactionCustomKey r else e
      | none => reactionCustomKey r

/-- Python dict assignment `results[key] = v`: overwrite the value at the
key's (unique) entry, keeping its position, otherwise append a new entry. -/
def dictSet : List (String × Int) → String → Int → List (String × Int)
  | [], k, v => [(k, v)]
  | p :: rest, k, v =>
      if p.1 == k then (k, v) :: rest else p :: dictSet rest k v

/-- Python dict lookup `m[k]` (as a partial operation). -/
def dictLookup (m : List (String × Int)) (k : String) : Option Int :=
  (m.find? (fun p => p.1 == k)).map (fun p => p.2)

/-- `extract_reactions` from `extractors.py`. -/
def extract_reactions (message : MsgForReactions) : List (String × Int) :=
  match message.reactions with
  | none => []
  | some robj =>
      if robj.results.isEmpty then []
      else robj.results.foldl (fun acc item => dictSet acc (reactionKey item) item.count) []

/-- `total_reactions` from `extractors.py`. -/
def total_reactions (reactions : List (String × Int)) : Int :=
  (reactions.map (fun p => p.2)).sum

/-! ## service.py -/

/-- A Python `datetime` as used in `service.py`: `wall` is the displayed
clock value in minutes, `tzoffset` is the UTC offset of its timezone
(`none` for a naive datetime). -/
structure PyDateTime where
  wall : Int
  tzoffset : Option Int
  deriving DecidableEq, Repr

/-- `_normalize_dt` from `service.py`, returning the UTC instant of the
normalized datetime: a naive datetime is reinterpreted as UTC
(`replace(tzinfo=timezone.utc)`), an aware one is converted
(`astimezone(timezone.utc)`). -/
def _normalize_dt (dt : PyDateTime) : Int :=
  match dt.tzoffset with
  | none => dt.wall
  | some off => dt.wall - off

/-- Minutes per day; `timedelta(days=d)` is `d * minutesPerDay` minutes. -/
def minutesPerDay : Int := 1440

/-- The calendar date (day index) of a UTC instant. -/
def dateOf (t : Int) : Int := t / minutesPerDay

/-- The lookback cutoff computed in `scrape_lookback`:
`since_dt = datetime.now(timezone.utc) - timedelta(days=effective_lookback)`. -/
def sinceCutoff (now : Int) (lookback : Int) : Int :=
  now - lookback * minutesPerDay

/-- A message as consumed by the per-channel loop of `scrape_lookback`;
only the date matters for the consumption contract (`message.date` may be
`None`). -/
structure TgMessage where
  msgId : Int
  date : Option PyDateTime
  deriving DecidableEq, Repr

/-- The per-channel message loop of `scrape_lookback` restricted to which
messages get ingested: iterate the newest-first stream; a message with no
date is skipped (`continue`); a message whose normalized timestamp is
strictly before `since_dt` stops the iteration (`break`); every other
message is ingested. Returns the ingested messages in consumption order. -/
def messagesIngested (since : Int) : List TgMessage → List TgMessage
  | [] => []
  | m :: rest =>
      match m.date with
      | none => messagesIngested since rest
      | some d =>
          if _normalize_dt d < since then []
          else m :: messagesIngested since rest

/-- `ScrapeStats` from `service.py`. -/
structure ScrapeStats where
  channels_total : Int := 0
  channels_ok : Int := 0
  channels_failed : Int := 0
  posts_processed : Int := 0
  deriving DecidableEq, Repr

/-- What can happen while `scrape_lookback` handles one channel:
* `resolveKnownFail`: `client.get_entity` raises one of
  `UsernameInvalidError`, `UsernameNotOccupiedError`, `ChannelPrivateError`
  (first `except` clause);
* `resolveUnexpectedFail`: `client.get_entity` raises any other exception
  (second `except Exception` clause);
* `ok n`: resolution succeeds and the message loop ingests `n` posts
  without raising;
* `processCrash`: resolution succeeds but an exception is raised inside
  the message loop or the database writes — code that in `service.py` is
  outside every `except` clause. -/
inductive ChannelEvent where
  | resolveKnownFail
  | resolveUnexpectedFail
  | ok (posts : Int)
  | processCrash
  deriving DecidableEq, Repr

/-- The channel loop of `scrape_lookback`.  Exceptions raised by per-channel
resolution are caught and counted (`continue`); an exception raised after
resolution propagates out of the loop (the surrounding `try` has only a
`finally`), aborting the run and losing the stats — modelled as `.error ()`. -/
def scrapeChannelLoop (stats : ScrapeStats) : List ChannelEvent → Except Unit ScrapeStats
  | [] => .ok stats
  | ev :: rest =>
      match ev with
      | .resolveKnownFail =>
          scrapeChannelLoop { stats with channels_failed := stats.channels_failed + 1 } rest
      | .resolveUnexpectedFail =>
          scrapeChannelLoop { stats with channels_failed := stats.channels_failed + 1 } rest
      | .ok n =>
          scrapeChannelLoop
            { stats with
                channels_ok := stats.channels_ok + 1
                posts_processed := stats.posts_processed + n } rest
      | .processCrash => .error ()

/-- `scrape_lookback` at the level of per-channel outcomes: stats start
with `channels_total = len(self.settings.channels)` and the loop runs over
the channels in order. -/
def scrape_lookback (events : List ChannelEvent) : Except Unit ScrapeStats :=
  scrapeChannelLoop { channels_total := (events.length : Int) } events

/-- Number of posts ingested for a channel event (0 for failures). -/
def eventPosts : ChannelEvent → Int
  | .ok n => n
  | _ => 0

/-- Whether a channel event is a caught resolution failure. -/
def isResolveFail : ChannelEvent → Bool
  | .resolveKnownFail => true
  | .resolveUnexpectedFail => true
  | _ => false

/-- Whether a channel event is a successfully processed channel. -/
def isOkEvent : ChannelEvent → Bool
  | .ok _ => true
  | _ => false

/-! ## db.py -/

/-- A row of the `posts` table (schema in `db.py`). -/
structure PostRow where
  id : Nat
  channel_id : Int
  channel_username : Option String
  channel_title : String
  message_id : Int
  post_url : Option String
  post_datetime : Int
  message_text : Option String
  views : Option Int
  forwards : Option Int
  deriving DecidableEq, Repr

/-- A row of the `links` table. -/
structure LinkRow where
  id : Nat
  post_id : Nat
  url : String
  link_type : String
  deriving DecidableEq, Repr

/-- A row of the `snapshots` table.  `reactions_json` holds the
reaction-kind map (`json.dumps(reactions, ...)` in the source serializes
exactly this mapping, so the model stores the mapping itself). -/
structure SnapRow where
  id : Nat
  post_id : Nat
  snapshot_date : Int
  total_reactions : Int
  reactions_json : List (String × Int)
  views : Option Int
  forwards : Option Int
  deriving DecidableEq, Repr

/-- The SQLite database: the three tables plus the AUTOINCREMENT counters
for their integer primary keys. -/
structure DB where
  posts : List PostRow
  links : List LinkRow
  snapshots : List SnapRow
  next_post_id : Nat
  next_link_id : Nat
  next_snap_id : Nat
  deriving DecidableEq, Repr

/-- The empty database produced by `ensure_db` on a fresh path. -/
def emptyDB : DB :=
  { posts := [], links := [], snapshots := [],
    next_post_id := 0, next_link_id := 0, next_snap_id := 0 }

/-- The natural key of the `posts` table: `UNIQUE(channel_id, message_id)`. -/
def postMatches (channel_id message_id : Int) (r : PostRow) : Bool :=
  r.channel_id == channel_id && r.message_id == message_id

/-- The natural key of the `snapshots` table: `UNIQUE(post_id, snapshot_date)`. -/
def snapMatches (post_id : Nat) (snapshot_date : Int) (s : SnapRow) : Bool :=
  s.post_id == post_id && s.snapshot_date == snapshot_date

/-- The non-key fields passed to `upsert_post`. -/
structure PostFields where
  channel_username : Option String
  channel_title : String
  post_url : Option String
  post_datetime : Int
  message_text : Option String
  views : Option Int
  forwards : Option Int
  deriving DecidableEq, Repr

/-- The `DO UPDATE SET` clause of `upsert_post`: every field except the
conflict key `(channel_id, message_id)` and the rowid is overwritten. -/
def updatePostRow (f : PostFields) (r : PostRow) : PostRow :=
  { r with
      channel_username := f.channel_username
      channel_title := f.channel_title
      post_url := f.post_url
      post_datetime := f.post_datetime
      message_text := f.message_text
      views := f.views
      forwards := f.forwards }

/-- The row update applied by the `DO UPDATE SET` clause to matching rows
(and the identity elsewhere). -/
def postUpdateFun (channel_id message_id : Int) (f : PostFields) (r : PostRow) : PostRow :=
  if postMatches channel_id message_id r then updatePostRow f r else r

/-- The fresh row written by the `INSERT` arm of `upsert_post`. -/
def insertedPostRow (pid : Nat) (channel_id message_id : Int) (f : PostFields) : PostRow :=
  { id := pid
    channel_id := channel_id
    channel_username := f.channel_username
    channel_title := f.channel_title
    message_id := message_id
    post_url := f.post_url
    post_datetime := f.post_datetime
    message_text := f.message_text
    views := f.views
    forwards := f.forwards }

/-- `upsert_post` from `db.py`: `INSERT ... ON CONFLICT(channel_id,
message_id) DO UPDATE SET ...` followed by `SELECT id` on the natural key;
the source raises `RuntimeError` when that select returns no row, modelled
by `none`. -/
def upsert_post (db : DB) (channel_id message_id : Int) (f : PostFields) :
    Option (Nat × DB) :=
  let hit := db.posts.any (postMatches channel_id message_id)
  let posts' :=
    if hit then
      db.posts.map (postUpdateFun channel_id message_id f)
    else
      db.posts ++ [insertedPostRow db.next_post_id channel_id message_id f]
  let db' := { db with
                 posts := posts'
                 next_post_id := if hit then db.next_post_id else db.next_post_id + 1 }
  match posts'.find? (postMatches channel_id message_id) with
  | some r => some (r.id, db')
  | none => none

/-- `INSERT OR IGNORE INTO links`: the insert is dropped when a row with
the same `(post_id, url)` already exists. -/
def insertLinkIgnore (db : DB) (post_id : Nat) (url link_type : String) : DB :=
  if db.links.any (fun r => r.post_id == post_id && r.url == url) then db
  else { db with
           links := db.links ++ [{ id := db.next_link_id, post_id := post_id,
                                   url := url, link_type := link_type }]
           next_link_id := db.next_link_id + 1 }

/-- `replace_links` from `db.py`: delete every link of the post, then
insert the given `(url, link_type)` pairs with `INSERT OR IGNORE`. -/
def replace_links (db : DB) (post_id : Nat) (links : List (String × String)) : DB :=
  let db0 := { db with links := db.links.filter (fun r => !(r.post_id == post_id)) }
  links.foldl (fun d p => insertLinkIgnore d post_id p.1 p.2) db0

/-- The row update applied by the `DO UPDATE SET` clause of
`upsert_snapshot` to matching rows (and the identity elsewhere). -/
def snapUpdateFun (post_id : Nat) (snapshot_date : Int) (total : Int)
    (reactions : List (String × Int)) (views forwards : Option Int)
    (s : SnapRow) : SnapRow :=
  if snapMatches post_id snapshot_date s then
    { s with total_reactions := total, reactions_json := reactions,
             views := views, forwards := forwards }
  else s

/-- The fresh row written by the `INSERT` arm of `upsert_snapshot`. -/
def insertedSnapRow (sid post_id : Nat) (snapshot_date : Int) (total : Int)
    (reactions : List (String × Int)) (views forwards : Option Int) : SnapRow :=
  { id := sid, post_id := post_id, snapshot_date := snapshot_date,
    total_reactions := total, reactions_json := reactions,
    views := views, forwards := forwards }

/-- `upsert_snapshot` from `db.py`: `INSERT ... ON CONFLICT(post_id,
snapshot_date) DO UPDATE SET ...`. -/
def upsert_snapshot (db : DB) (post_id : Nat) (snapshot_date : Int)
    (total : Int) (reactions : List (String × Int))
    (views forwards : Option Int) : DB :=
  if db.snapshots.any (snapMatches post_id snapshot_date) then
    { db with
        snapshots := db.snapshots.map
          (snapUpdateFun post_id snapshot_date total reactions views forwards) }
  else
    { db with
        snapshots := db.snapshots ++
          [insertedSnapRow db.next_snap_id post_id snapshot_date total reactions views forwards]
        next_snap_id := db.next_snap_id + 1 }

/-- The data of one scraped message as assembled in the body of the
per-message loop of `scrape_lookback` (`service.py` lines 78-107). -/
structure ScrapedMsg where
  channel_id : Int
  channel_username : Option String
  channel_title : String
  message_id : Int
  post_url : Option String
  post_datetime : Int
  message_text : Option String
  views : Option Int
  forwards : Option Int
  urls : List String
  reactions_map : List (String × Int)
  deriving DecidableEq, Repr

/-- The `upsert_post` / `replace_links` / `upsert_snapshot` sequence the
scrape loop performs for one message (`service.py` lines 86-107), with
`snapshot_date` the run's snapshot day.  Returns the resolved post id
together with the new database state. -/
def ingestMessage (db : DB) (snapshot_date : Int) (m : ScrapedMsg) :
    Option (Nat × DB) :=
  match upsert_post db m.channel_id m.message_id
      { channel_username := m.channel_username
        channel_title := m.channel_title
        post_url := m.post_url
        post_datetime := m.post_datetime
        message_text := m.message_text
        views := m.views
        forwards := m.forwards } with
  | none => none
  | some (pid, db1) =>
      let db2 := replace_links db1 pid (links_with_types m.urls)
      let db3 := upsert_snapshot db2 pid snapshot_date
        (total_reactions m.reactions_map) m.reactions_map m.views m.forwards
      some (pid, db3)

/-- Well-formedness invariants of the database, as enforced by the SQLite
schema: the `posts` natural key and primary key are unique, every primary
key is below the AUTOINCREMENT counter, the `snapshots` natural key is
unique, and `snapshots.post_id` respects its foreign key into `posts`. -/
def WF (db : DB) : Prop :=
  db.posts.Pairwise (fun a b => ¬(a.channel_id = b.channel_id ∧ a.message_id = b.message_id)) ∧
  db.posts.Pairwise (fun a b => a.id ≠ b.id) ∧
  (∀ p ∈ db.posts, p.id < db.next_post_id) ∧
  db.snapshots.Pairwise (fun a b => ¬(a.post_id = b.post_id ∧ a.snapshot_date = b.snapshot_date)) ∧
  (∀ s ∈ db.snapshots, ∃ p ∈ db.posts, p.id = s.post_id)

instance (db : DB) : Decidable (WF db) := by
  unfold WF
  infer_instance

/-! ## reporting.py -/

/-- `TopPost` from `reporting.py`. -/
structure TopPost where
  channel_title : String
  channel_username : Option String
  message_id : Int
  post_url : Option String
  post_datetime : Int
  message_text : Option String
  latest_reactions : Int
  reactions_growth : Int
  latest_views : Option Int
  latest_forwards : Option Int
  github_links : List String
  research_links : List String
  article_links : List String
  deriving DecidableEq, Repr

/-- `_window_start` from `reporting.py`:
`date.today() - timedelta(days=max(1, lookback_days) - 1)`. -/
def _window_start (today lookback_days : Int) : Int :=
  today - (max 1 lookback_days - 1)

/-- The `window` CTE of the ranking query: snapshots with
`snapshot_date >= start`. -/
def windowSnaps (db : DB) (start : Int) : List SnapRow :=
  db.snapshots.filter (fun s => start ≤ s.snapshot_date)

/-- The post ids grouped over by `latest_by_post` / `oldest_by_post`. -/
def windowPostIds (db : DB) (start : Int) : List Nat :=
  ((windowSnaps db start).map (fun s => s.post_id)).dedup

/-- SQL `MAX` over a list of dates. -/
def listMaxD : List Int → Option Int
  | [] => none
  | x :: xs =>
      match listMaxD xs with
      | none => some x
      | some m => some (max x m)

/-- SQL `MIN` over a list of dates. -/
def listMinD : List Int → Option Int
  | [] => none
  | x :: xs =>
      match listMinD xs with
      | none => some x
      | some m => some (min x m)

/-- One row of the outer `SELECT` of the ranking query in `get_top_posts`. -/
structure CandRow where
  post_id : Nat
  channel_title : String
  channel_username : Option String
  message_id : Int
  post_url : Option String
  post_datetime : Int
  message_text : Option String
  latest_reactions : Int
  reactions_growth : Int
  latest_views : Option Int
  latest_forwards : Option Int
  deriving DecidableEq, Repr

/-- The in-window snapshots of one post (`window` filtered to a post id). -/
def postWindow (db : DB) (start : Int) (pid : Nat) : List SnapRow :=
  (windowSnaps db start).filter (fun s => s.post_id == pid)

/-- The `metrics` CTE joined with `posts` for one post id: locate the
latest and oldest in-window snapshot (`MAX`/`MIN` date, then the join back
into `window`, which is unique by `UNIQUE(post_id, snapshot_date)`) and the
post row (`JOIN posts p ON p.id = m.post_id`), and assemble the selected
columns, including `latest_reactions - oldest_reactions AS reactions_growth`. -/
def buildCandRow (db : DB) (start : Int) (pid : Nat) : Option CandRow :=
  let snaps := postWindow db start pid
  match listMaxD (snaps.map (fun s => s.snapshot_date)),
        listMinD (snaps.map (fun s => s.snapshot_date)) with
  | some latest_date, some oldest_date =>
      match snaps.find? (fun s => s.snapshot_date == latest_date),
            snaps.find? (fun s => s.snapshot_date == oldest_date),
            db.posts.find? (fun p => p.id == pid) with
      | some wl, some wo, some p =>
          some { post_id := pid
                 channel_title := p.channel_title
                 channel_username := p.channel_username
                 message_id := p.message_id
                 post_url := p.post_url
                 post_datetime := p.post_datetime
                 message_text := p.message_text
                 latest_reactions := wl.total_reactions
                 reactions_growth := wl.total_reactions - wo.total_reactions
                 latest_views := wl.views
                 latest_forwards := wl.forwards }
      | _, _, _ => none
  | _, _ => none

/-- The unsorted result set of the ranking query (one row per post with an
in-window snapshot and a matching post row). -/
def candRows (db : DB) (start : Int) : List CandRow :=
  (windowPostIds db start).filterMap (buildCandRow db start)

/-- The `ORDER BY m.latest_reactions DESC, reactions_growth DESC,
p.post_datetime DESC` ordering: `a` may come before `b` when `a` beats `b`
lexicographically on those three keys (non-strictly on the last). -/
def candBefore (a b : CandRow) : Prop :=
  b.latest_reactions < a.latest_reactions ∨
  (b.latest_reactions = a.latest_reactions ∧
    (b.reactions_growth < a.reactions_growth ∨
      (b.reactions_growth = a.reactions_growth ∧ b.post_datetime ≤ a.post_datetime)))

instance : DecidableRel candBefore := fun a b => by
  unfold candBefore
  infer_instance

instance : IsTotal CandRow candBefore := by
  constructor
  intro a b
  unfold candBefore
  omega

instance : IsTrans CandRow candBefore := by
  constructor
  intro a b c hab hbc
  unfold candBefore at hab hbc ⊢
  omega

/-- The ranked candidate rows, before `LIMIT` is applied. -/
def rankedRows (db : DB) (start : Int) : List CandRow :=
  List.insertionSort candBefore (candRows db start)

instance : DecidableRel (fun a b : LinkRow => a.id ≤ b.id) :=
  fun a b => Nat.decLe a.id b.id

/-- The per-candidate link query of `get_top_posts`:
`SELECT url, link_type FROM links WHERE post_id = ? ORDER BY id ASC`. -/
def linkRowsFor (db : DB) (pid : Nat) : List LinkRow :=
  List.insertionSort (fun a b => a.id ≤ b.id)
    (db.links.filter (fun r => r.post_id == pid))

/-- `_split_links` from `reporting.py`: the loop appends each url to the
bucket of its `link_type`, in row order; `telegram` and `other` links are
dropped. -/
def _split_links (rows : List LinkRow) :
    List String × List String × List String :=
  ((rows.filter (fun r => r.link_type == "github")).map (fun r => r.url),
   (rows.filter (fun r => r.link_type == "research")).map (fun r => r.url),
   (rows.filter (fun r => r.link_type == "article")).map (fun r => r.url))

/-- `_passes_link_filters` from `reporting.py`. -/
def _passes_link_filters (github_links research_links article_links : List String)
    (require_external_links research_only require_github : Bool) : Bool :=
  if require_github && github_links.isEmpty then false
  else
    let has_external := !(github_links.isEmpty && research_links.isEmpty && article_links.isEmpty)
    if require_external_links && !has_external then false
    else if research_only && research_links.isEmpty then false
    else true

/-- Whether a ranked candidate passes the link filters of `get_top_posts`. -/
def passRow (db : DB)
    (require_external_links research_only require_github : Bool)
    (row : CandRow) : Bool :=
  let parts := _split_links (linkRowsFor db row.post_id)
  _passes_link_filters parts.1 parts.2.1 parts.2.2
    require_external_links research_only require_github

/-- The `TopPost` built from a candidate row in the body of the result loop
of `get_top_posts`. -/
def mkTopPost (db : DB) (row : CandRow) : TopPost :=
  let parts := _split_links (linkRowsFor db row.post_id)
  { channel_title := row.channel_title
    channel_username := row.channel_username
    message_id := row.message_id
    post_url := row.post_url
    post_datetime := row.post_datetime
    message_text := row.message_text
    latest_reactions := row.latest_reactions
    reactions_growth := row.reactions_growth
    latest_views := row.latest_views
    latest_forwards := row.latest_forwards
    github_links := parts.1
    research_links := parts.2.1
    article_links := parts.2.2 }

/-- The result loop of `get_top_posts`: stream the (already limited)
candidate rows, skip rows failing the filters (`continue`), append passing
rows, and stop as soon as `len(result) >= limit` (`break`). -/
def topPostsLoop (db : DB) (limit : Int)
    (require_external_links research_only require_github : Bool) :
    List CandRow → List TopPost → List TopPost
  | [], acc => acc
  | row :: rest, acc =>
      if !passRow db require_external_links research_only require_github row then
        topPostsLoop db limit require_external_links research_only require_github rest acc
      else
        let acc' := acc ++ [mkTopPost db row]
        if limit ≤ (acc'.length : Int) then acc'
        else topPostsLoop db limit require_external_links research_only require_github rest acc'

/-- `get_top_posts` from `reporting.py`: compute the window start, fetch at
most `max(limit * 10, 200)` candidates in ranked order, then run the
filtering loop. -/
def get_top_posts (db : DB) (today : Int) (lookback_days : Int) (limit : Int)
    (require_external_links research_only require_github : Bool) : List TopPost :=
  let start := _window_start today lookback_days
  let candidates_limit := max (limit * 10) 200
  let rows := (rankedRows db start).take candidates_limit.toNat
  topPostsLoop db limit require_external_links research_only require_github rows []

/-! ## JSON export (`_post_to_dict` / `export_top_posts_json`)

The structured export is modelled at the level of JSON values: the
`json` module's `dumps`/`loads` pair is an external collaborator that
round-trips every JSON value, so serialization is represented by the
value itself. -/

/-- A JSON value as produced by `json.dumps` inputs in `reporting.py`. -/
inductive Json where
  | null : Json
  | str (s : String) : Json
  | int (n : Int) : Json
  | arr (elems : List Json) : Json
  | obj (fields : List (String × Json)) : Json

/-- An optional string field value (`None` becomes JSON `null`). -/
def jsonOptStr : Option String → Json
  | none => Json.null
  | some s => Json.str s

/-- An optional integer field value (`None` becomes JSON `null`). -/
def jsonOptInt : Option Int → Json
  | none => Json.null
  | some n => Json.int n

/-- A list-of-strings field value. -/
def jsonStrList (xs : List String) : Json :=
  Json.arr (xs.map Json.str)

/-- `_post_to_dict` from `reporting.py`. -/
def _post_to_dict (post : TopPost) : Json :=
  Json.obj
    [("channel_title", Json.str post.channel_title),
     ("channel_username", jsonOptStr post.channel_username),
     ("message_id", Json.int post.message_id),
     ("post_url", jsonOptStr post.post_url),
     ("post_datetime", Json.int post.post_datetime),
     ("message_text", jsonOptStr post.message_text),
     ("latest_reactions", Json.int post.latest_reactions),
     ("reactions_growth", Json.int post.reactions_growth),
     ("latest_views", jsonOptInt post.latest_views),
     ("latest_forwards", jsonOptInt post.latest_forwards),
     ("github_links", jsonStrList post.github_links),
     ("research_links", jsonStrList post.research_links),
     ("article_links", jsonStrList post.article_links)]

/-- `export_top_posts_json` from `reporting.py`: the written payload is the
JSON array of the per-post dicts. -/
def export_top_posts_json (top_posts : List TopPost) : Json :=
  Json.arr (top_posts.map _post_to_dict)

/-- Reading a field of a parsed JSON object. -/
def jsonGet (j : Json) (key : String) : Option Json :=
  match j with
  | Json.obj fields => (fields.find? (fun f => f.1 == key)).map (fun f => f.2)
  | _ => none

/-- Reading a string field back. -/
def jsonAsStr : Json → Option String
  | Json.str s => some s
  | _ => none

/-- Reading an optional string field back. -/
def jsonAsOptStr : Json → Option (Option String)
  | Json.null => some none
  | Json.str s => some (some s)
  | _ => none

/-- Reading an integer field back. -/
def jsonAsInt : Json → Option Int
  | Json.int n => some n
  | _ => none

/-- Reading an optional integer field back. -/
def jsonAsOptInt : Json → Option (Option Int)
  | Json.null => some none
  | Json.int n => some (some n)
  | _ => none

/-- Reading a list-of-strings field back. -/
def jsonAsStrList : Json → Option (List String)
  | Json.arr elems => elems.mapM jsonAsStr
  | _ => none

/-- Parsing one exported record back into a `TopPost`. -/
def postFromDict (j : Json) : Option TopPost := do
  let channel_title ← (jsonGet j "channel_title").bind jsonAsStr
  let channel_username ← (jsonGet j "channel_username").bind jsonAsOptStr
  let message_id ← (jsonGet j "message_id").bind jsonAsInt
  let post_url ← (jsonGet j "post_url").bind jsonAsOptStr
  let post_datetime ← (jsonGet j "post_datetime").bind jsonAsInt
  let message_text ← (jsonGet j "message_text").bind jsonAsOptStr
  let latest_reactions ← (jsonGet j "latest_reactions").bind jsonAsInt
  let reactions_growth ← (jsonGet j "reactions_growth").bind jsonAsInt
  let latest_views ← (jsonGet j "latest_views").bind jsonAsOptInt
  let latest_forwards ← (jsonGet j "latest_forwards").bind jsonAsOptInt
  let github_links ← (jsonGet j "github_links").bind jsonAsStrList
  let research_links ← (jsonGet j "research_links").bind jsonAsStrList
  let article_links ← (jsonGet j "article_links").bind jsonAsStrList
  pure { channel_title := channel_title
         channel_username := channel_username
         message_id := message_id
         post_url := post_url
         post_datetime := post_datetime
         message_text := message_text
         latest_reactions := latest_reactions
         reactions_growth := reactions_growth
         latest_views := latest_views
         latest_forwards := latest_forwards
         github_links := github_links
         research_links := research_links
         article_links := article_links }

/-- Parsing a whole exported file back into its list of posts. -/
def parseTopPosts (j : Json) : Option (List TopPost) :=
  match j with
  | Json.arr elems => elems.mapM postFromDict
  | _ => none

/-! ## Theorems

### C6: link classification -/

theorem mem_keys_dictSet (m : List (String × Int)) (k : String) (v : Int) (q : String) :
    q ∈ (dictSet m k v).map Prod.fst ↔ q ∈ m.map Prod.fst ∨ q = k := by
  induction m with
  | nil => simp [dictSet]
  | cons p rest ih =>
      by_cases hpk : p.1 = k
      · simp only [dictSet, hpk, beq_self_eq_true, if_true, List.map_cons, List.mem_cons]
        constructor
        · rintro (rfl | hq)
          · exact Or.inr rfl
          · exact Or.inl (Or.inr hq)
        · rintro ((hq | hq) | rfl)
          · exact Or.inl hq
          · exact Or.inr hq
          · exact Or.inl rfl
      · have hb : (p.1 == k) = false := by simpa using hpk
        simp only [dictSet, hb, Bool.false_eq_true, if_false, List.map_cons, List.mem_cons, ih]
        tauto

theorem mem_keys_reaction_fold (items : List ReactionItem)
    (acc : List (String × Int)) (q : String) :
    q ∈ ((items.foldl (fun a i => dictSet a (reactionKey i) i.count) acc).map Prod.fst) ↔
      q ∈ acc.map Prod.fst ∨ ∃ i ∈ items, reactionKey i = q := by
  induction items generalizing acc with
  | nil => simp
  | cons i rest ih =>
      simp only [List.foldl_cons, ih, mem_keys_dictSet, List.mem_cons]
      constructor
      · rintro ((hq | rfl) | ⟨j, hj, hjq⟩)
        · exact Or.inl hq
        · exact Or.inr ⟨i, Or.inl rfl, rfl⟩
        · exact Or.inr ⟨j, Or.inr hj, hjq⟩
      · rintro (hq | ⟨j, (rfl | hj), hjq⟩)
        · exact Or.inl (Or.inl hq)
        · exact Or.inl (Or.inr hjq.symm)
        · exact Or.inr ⟨j, hj, hjq⟩

theorem dictLookup_cons (p : String × Int) (m : List (String × Int)) (q : String) :
    dictLookup (p :: m) q = if p.1 == q then some p.2 else dictLookup m q := by
  by_cases h : p.1 = q
  · have hb : (p.1 == q) = true := by simpa using h
    simp [dictLookup, List.find?, hb]
  · have hb : (p.1 == q) = false := by simpa using h
    simp [dictLookup, List.find?, hb]

theorem dictLookup_dictSet (m : List (String × Int)) (k : String) (v : Int) (q : String) :
    dictLookup (dictSet m k v) q = if q = k then some v else dictLookup m q := by
  induction m with
  | nil =>
      rw [show dictSet [] k v = [(k, v)] from rfl, dictLookup_cons]
      by_cases hqk : q = k
      · have hb : ((k, v).1 == q) = true := by simpa using hqk.symm
        simp [hb, hqk]
      · have hb : ((k, v).1 == q) = false := by simpa using fun hh => hqk hh.symm
        simp [hb, hqk, dictLookup]
  | cons p rest ih =>
      by_cases hpk : p.1 = k
      · have hb : (p.1 == k) = true := by simpa using hpk
        simp only [dictSet, hb, if_true]
        rw [dictLookup_cons, dictLookup_cons]
        by_cases hqk : q = k
        · have hk : ((k, v).1 == q) = true := by simpa using hqk.symm
          simp [hk, hqk]
        · have hk : ((k, v).1 == q) = false := by simpa using fun hh => hqk hh.symm
          have hp : (p.1 == q) = false := by
            simpa using fun hh => hqk (hh.symm.trans hpk)
          simp [hk, hp, hqk]
      · have hb : (p.1 == k) = false := by simpa using hpk
        simp only [dictSet, hb, Bool.false_eq_true, if_false]
        rw [dictLookup_cons, dictLookup_cons, ih]
        by_cases hpq : p.1 = q
        · have hp : (p.1 == q) = true := by simpa using hpq
          have hqk : ¬(q = k) := fun hh => hpk (hpq.trans hh)
          simp [hp, hqk]
        · have hp : (p.1 == q) = false := by simpa using hpq
          simp [hp]

theorem dictLookup_reaction_fold (items : List ReactionItem)
    (acc : List (String × Int)) (q : String) :
    dictLookup (items.foldl (fun a i => dictSet a (reactionKey i) i.count) acc) q =
      ((items.reverse.find? (fun i => reactionKey i == q)).map (fun i => i.count)).or
        (dictLookup acc q) := by
  induction items generalizing acc with
  | nil => simp
  | cons i rest ih =>
      simp only [List.foldl_cons, List.reverse_cons, List.find?_append]
      rw [ih, dictLookup_dictSet]
      cases hA : rest.reverse.find? (fun i => reactionKey i == q) with
      | some j => simp
      | none =>
          by_cases hq : q = reactionKey i
          · have hb : (reactionKey i == q) = true := by simpa using hq.symm
            simp [List.find?, hb, hq]
          · have hb : (reactionKey i == q) = false := by
              simpa using fun hh => hq hh.symm
            simp [List.find?, hb, hq]

/-- C7: reaction extraction yields a kind-to-count mapping: a message with
missing or empty reactions yields the empty mapping; an item whose
reaction object is absent contributes the key `unknown`; a non-emoji
(custom) reaction with document id `d ≠ 0` contributes the key
`custom_<d>`; and the message's total reactions equal the sum of the
mapping's values. -/
theorem extract_reactions_claim :
    (∀ msg : MsgForReactions, msg.reactions = none → extract_reactions msg = []) ∧
    (∀ (msg : MsgForReactions) (robj : MessageReactions),
      msg.reactions = some robj → robj.results = [] → extract_reactions msg = []) ∧
    (∀ (msg : MsgForReactions) (robj : MessageReactions) (item : ReactionItem),
      msg.reactions = some robj → item ∈ robj.results → item.reaction = none →
      "unknown" ∈ (extract_reactions msg).map Prod.fst) ∧
    (∀ (msg : MsgForReactions) (robj : MessageReactions) (item : ReactionItem)
        (r : ReactionObj) (d : Nat),
      msg.reactions = some robj → item ∈ robj.results → item.reaction = some r →
      (r.emoticon = none ∨ r.emoticon = some "") → r.document_id = some d → d ≠ 0 →
      ("custom_" ++ toString d) ∈ (extract_reactions msg).map Prod.fst) ∧
    (∀ msg : MsgForReactions,
      total_reactions (extract_reactions msg) =
        ((extract_reactions msg).map (fun p => p.2)).sum) := by
  refine ⟨?_, ?_, ?_, ?_, ?_⟩
  · intro msg h
    simp [extract_reactions, h]
  · intro msg robj h hres
    simp [extract_reactions, h, hres]
  · intro msg robj item h hitem hnone
    have hne : robj.results.isEmpty = false := by
      cases hr : robj.results with
      | nil => rw [hr] at hitem; cases hitem
      | cons a l => rfl
    have hkey : reactionKey item = "unknown" := by
      simp [reactionKey, hnone]
    rw [extract_reactions.eq_def, h]
    simp only [hne, Bool.false_eq_true, if_false]
    exact (mem_keys_reaction_fold robj.results [] "unknown").mpr
      (Or.inr ⟨item, hitem, hkey⟩)
  · intro msg robj item r d h hitem hr hemo hdoc hd0
    have hne : robj.results.isEmpty = false := by
      cases hrr : robj.results with
      | nil => rw [hrr] at hitem; cases hitem
      | cons a l => rfl
    have hcust : reactionCustomKey r = "custom_" ++ toString d := by
      have hdz : (d == 0) = false := by simpa using hd0
      simp [reactionCustomKey, hdoc, hdz]
    have hkey : reactionKey item = "custom_" ++ toString d := by
      rcases hemo with he | he
      · simp [reactionKey, hr, he, hcust]
      · simp [reactionKey, hr, he, hcust]
    rw [extract_reactions.eq_def, h]
    simp only [hne, Bool.false_eq_true, if_false]
    exact (mem_keys_reaction_fold robj.results [] _).mpr (Or.inr ⟨item, hitem, hkey⟩)
  · intro msg
    rfl

/-- Witness for the conditional parts of `extract_reactions_claim`. -/
theorem extract_reactions_claim_witness :
    "unknown" ∈ (extract_reactions ⟨some ⟨[⟨none, 3⟩]⟩⟩).map Prod.fst ∧
    "custom_77" ∈
      (extract_reactions ⟨some ⟨[⟨some ⟨none, some 77, "obj"⟩, 4⟩]⟩⟩).map Prod.fst :=
  ⟨extract_reactions_claim.2.2.1 ⟨some ⟨[⟨none, 3⟩]⟩⟩ ⟨[⟨none, 3⟩]⟩ ⟨none, 3⟩
      rfl (List.mem_singleton.mpr rfl) rfl,
   extract_reactions_claim.2.2.2.1 ⟨some ⟨[⟨some ⟨none, some 77, "obj"⟩, 4⟩]⟩⟩
      ⟨[⟨some ⟨none, some 77, "obj"⟩, 4⟩]⟩ ⟨some ⟨none, some 77, "obj"⟩, 4⟩
      ⟨none, some 77, "obj"⟩ 77 rfl (List.mem_singleton.mpr rfl) rfl (Or.inl rfl) rfl
      (by decide)⟩

/-- The count stored for key `q` by `extract_reactions` as described by
claim C10: the count of the last reaction item whose key is `q`. -/
def msgLastCount (msg : MsgForReactions) (q : String) : Option Int :=
  match msg.reactions with
  | none => none
  | some robj =>
      if robj.results.isEmpty then none
      else (robj.results.reverse.find? (fun i => reactionKey i == q)).map (fun i => i.count)

/-- A message with two reaction items that both map to the `unknown` key. -/
def collideMsg : MsgForReactions := ⟨some ⟨[⟨none, 3⟩, ⟨none, 5⟩]⟩⟩

/-- The sum of the counts of all reaction entries on a message. -/
def sumItemCounts (msg : MsgForReactions) : Int :=
  match msg.reactions with
  | none => 0
  | some robj => (robj.results.map (fun i => i.count)).sum

/-- C10: when several reaction items map to the same mapping key, the
mapping built by `extract_reactions` keeps only the last such item's count
(colliding counts are overwritten, not summed), so the stored mapping and
the computed total can be smaller than the sum of the counts of all
reaction entries — witnessed by a message with two unidentifiable
reactions of counts 3 and 5. -/
theorem extract_reactions_last_wins :
    (∀ (msg : MsgForReactions) (q : String),
      dictLookup (extract_reactions msg) q = msgLastCount msg q) ∧
    extract_reactions collideMsg = [("unknown", 5)] ∧
    total_reactions (extract_reactions collideMsg) = 5 ∧
    sumItemCounts collideMsg = 8 ∧
    total_reactions (extract_reactions collideMsg) < sumItemCounts collideMsg := by
  refine ⟨?_, by decide, by decide, by decide, by decide⟩
  intro msg q
  rw [extract_reactions.eq_def, msgLastCount.eq_def]
  cases h : msg.reactions with
  | none => rfl
  | some robj =>
      by_cases hres : robj.results.isEmpty
      · simp [hres, dictLookup]
      · have hres' : robj.results.isEmpty = false := by simpa using hres
        simp only [hres', Bool.false_eq_true, if_false]
        rw [dictLookup_reaction_fold]
        simp [dictLookup]

/-! ### C9: export round trip -/

theorem jsonAsOptStr_roundtrip (x : Option String) :
    jsonAsOptStr (jsonOptStr x) = some x := by
  cases x <;> rfl

theorem jsonAsOptInt_roundtrip (x : Option Int) :
    jsonAsOptInt (jsonOptInt x) = some x := by
  cases x <;> rfl

theorem jsonStrList_roundtrip (xs : List String) :
    jsonAsStrList (jsonStrList xs) = some xs := by
  have : ∀ ys : List String, (ys.map Json.str).mapM jsonAsStr = some ys := by
    intro ys
    induction ys with
    | nil => rfl
    | cons y rest ih =>
        rw [List.map_cons, List.mapM_cons, ih]
        rfl
  simpa [jsonStrList, jsonAsStrList] using this xs

theorem postFromDict_roundtrip (p : TopPost) :
    postFromDict (_post_to_dict p) = some p := by
  obtain ⟨ct, cu, mid, pu, pdt, mt, lr, rg, lv, lf, gh, rs, ar⟩ := p
  simp [postFromDict, _post_to_dict, jsonGet, List.find?, jsonAsStr, jsonAsInt,
        jsonAsOptStr_roundtrip, jsonAsOptInt_roundtrip, jsonStrList_roundtrip]

/-- C9: exporting a ranked list to the structured JSON format and parsing
it back reproduces every post's field values exactly. -/
theorem export_top_posts_json_roundtrip (posts : List TopPost) :
    parseTopPosts (export_top_posts_json posts) = some posts := by
  simp only [export_top_posts_json, parseTopPosts]
  induction posts with
  | nil => rfl
  | cons p rest ih =>
      rw [List.map_cons, List.mapM_cons, ih, postFromDict_roundtrip]
      rfl

/-! ### C8: lookback consumption contract -/

theorem messagesIngested_cons (since : Int) (x : TgMessage) (rest : List TgMessage) :
    messagesIngested since (x :: rest) =
      match x.date with
      | none => messagesIngested since rest
      | some d =>
          if _normalize_dt d < since then []
          else x :: messagesIngested since rest := rfl

theorem messagesIngested_cons_none (since : Int) (x : TgMessage) (rest : List TgMessage)
    (hx : x.date = none) :
    messagesIngested since (x :: rest) = messagesIngested since rest := by
  rw [messagesIngested_cons, hx]

theorem messagesIngested_cons_some (since : Int) (x : TgMessage) (rest : List TgMessage)
    (d : PyDateTime) (hx : x.date = some d) :
    messagesIngested since (x :: rest) =
      if _normalize_dt d < since then []
      else x :: messagesIngested since rest := by
  rw [messagesIngested_cons, hx]

theorem mem_messagesIngested (since : Int) (msgs : List TgMessage) (m : TgMessage)
    (hm : m ∈ messagesIngested since msgs) :
    ∃ d, m.date = some d ∧ since ≤ _normalize_dt d ∧ m ∈ msgs := by
  induction msgs with
  | nil => cases hm
  | cons x rest ih =>
      cases hx : x.date with
      | none =>
          rw [messagesIngested_cons_none since x rest hx] at hm
          obtain ⟨d, hd, hle, hmem⟩ := ih hm
          exact ⟨d, hd, hle, List.mem_cons_of_mem _ hmem⟩
      | some d =>
          rw [messagesIngested_cons_some since x rest d hx] at hm
          by_cases hlt : _normalize_dt d < since
          · rw [if_pos hlt] at hm
            cases hm
          · rw [if_neg hlt] at hm
            rcases List.mem_cons.mp hm with rfl | hm'
            · exact ⟨d, hx, le_of_not_lt hlt, List.mem_cons_self _ _⟩
            · obtain ⟨d', hd', hle', hmem'⟩ := ih hm'
              exact ⟨d', hd', hle', List.mem_cons_of_mem _ hmem'⟩

/-- C8 (amended): per channel, the newest-first stream is consumed until it
is exhausted or a message's UTC-normalized timestamp is strictly older than
the cutoff `now - lookback days`, at which point consumption stops without
examining later messages; for a stream of already-sent messages
(timestamps at most `now`) every ingested message's timestamp lies in
`[now - lookback days, now]`, so its calendar date lies in the inclusive
range `[today - lookback, today]` (not `[today - (lookback - 1), today]`). -/
theorem scrape_cutoff_amended :
    (∀ (since : Int) (pre post : List TgMessage) (m : TgMessage) (dm : PyDateTime),
      (∀ x ∈ pre, ∀ d, x.date = some d → since ≤ _normalize_dt d) →
      m.date = some dm → _normalize_dt dm < since →
      messagesIngested since (pre ++ m :: post) = messagesIngested since pre) ∧
    (∀ (now lookback : Int) (msgs : List TgMessage),
      (∀ x ∈ msgs, ∀ d, x.date = some d → _normalize_dt d ≤ now) →
      ∀ m ∈ messagesIngested (sinceCutoff now lookback) msgs,
      ∃ d, m.date = some d ∧
        sinceCutoff now lookback ≤ _normalize_dt d ∧
        dateOf now - lookback ≤ dateOf (_normalize_dt d) ∧
        dateOf (_normalize_dt d) ≤ dateOf now) := by
  constructor
  · intro since pre post m dm hpre hm hlt
    induction pre with
    | nil =>
        rw [List.nil_append, messagesIngested_cons_some since m post dm hm, if_pos hlt]
        rfl
    | cons x rest ih =>
        have hrest : ∀ y ∈ rest, ∀ d, y.date = some d → since ≤ _normalize_dt d :=
          fun y hy => hpre y (List.mem_cons_of_mem _ hy)
        have hx := hpre x (List.mem_cons_self _ _)
        rw [List.cons_append]
        cases hxd : x.date with
        | none =>
            rw [messagesIngested_cons_none since x (rest ++ m :: post) hxd,
                messagesIngested_cons_none since x rest hxd]
            exact ih hrest
        | some d =>
            have hge : ¬(_normalize_dt d < since) := not_lt.mpr (hx d hxd)
            rw [messagesIngested_cons_some since x (rest ++ m :: post) d hxd,
                messagesIngested_cons_some since x rest d hxd, if_neg hge, if_neg hge,
                ih hrest]
  · intro now lookback msgs hub m hm
    obtain ⟨d, hd, hle, hmem⟩ := mem_messagesIngested _ _ _ hm
    refine ⟨d, hd, hle, ?_, ?_⟩
    · have h1 : now - lookback * minutesPerDay ≤ _normalize_dt d := hle
      simp only [minutesPerDay] at h1
      simp only [dateOf, minutesPerDay]
      omega
    · have h2 : _normalize_dt d ≤ now := hub m hmem d hd
      simp only [dateOf, minutesPerDay]
      omega

/-- Witness for `scrape_cutoff_amended` at concrete inputs. -/
theorem scrape_cutoff_amended_witness :
    messagesIngested 0
        ([⟨1, some ⟨5, none⟩⟩] ++ ⟨2, some ⟨-3, none⟩⟩ :: [⟨3, some ⟨9, none⟩⟩]) =
      messagesIngested 0 [⟨1, some ⟨5, none⟩⟩] ∧
    (∃ d, (⟨1, some ⟨300, none⟩⟩ : TgMessage).date = some d ∧
      sinceCutoff 1500 1 ≤ _normalize_dt d ∧
      dateOf 1500 - 1 ≤ dateOf (_normalize_dt d) ∧
      dateOf (_normalize_dt d) ≤ dateOf 1500) := by
  constructor
  · refine scrape_cutoff_amended.1 0 [⟨1, some ⟨5, none⟩⟩] [⟨3, some ⟨9, none⟩⟩]
      ⟨2, some ⟨-3, none⟩⟩ ⟨-3, none⟩ ?_ rfl (by decide)
    intro x hx d hd
    rw [List.mem_singleton] at hx
    subst hx
    injection hd with hd'
    subst hd'
    decide
  · refine scrape_cutoff_amended.2 1500 1 [⟨1, some ⟨300, none⟩⟩] ?_
      ⟨1, some ⟨300, none⟩⟩ (by decide)
    intro x hx d hd
    rw [List.mem_singleton] at hx
    subst hx
    injection hd with hd'
    subst hd'
    decide

/-- C8 is refuted as stated: with `now` at minute 144720 (12:00 on day 100)
and a 1-day lookback, a message stamped at minute 143360 (day 99) is
ingested, yet its calendar date 99 lies outside the claimed inclusive range
`[today - (lookback - 1), today] = [100, 100]`: the code's cutoff is the
timestamp `now - lookback days`, not the date `today - (lookback - 1)`. -/
theorem scrape_cutoff_counterexample :
    messagesIngested (sinceCutoff 144720 1) [⟨1, some ⟨143360, none⟩⟩] =
      [⟨1, some ⟨143360, none⟩⟩] ∧
    dateOf (_normalize_dt ⟨143360, none⟩) = 99 ∧
    dateOf 144720 - (1 - 1) = 100 ∧
    ¬(dateOf 144720 - (1 - 1) ≤ dateOf (_normalize_dt ⟨143360, none⟩)) := by
  refine ⟨by decide, by decide, by decide, by decide⟩

/-! ### C1: per-channel error handling -/

theorem scrapeChannelLoop_spec (events : List ChannelEvent) (stats : ScrapeStats)
    (h : ChannelEvent.processCrash ∉ events) :
    scrapeChannelLoop stats events = Except.ok
      { channels_total := stats.channels_total
        channels_ok := stats.channels_ok + (events.countP isOkEvent : Int)
        channels_failed := stats.channels_failed + (events.countP isResolveFail : Int)
        posts_processed := stats.posts_processed + (events.map eventPosts).sum } := by
  induction events generalizing stats with
  | nil => simp [scrapeChannelLoop]
  | cons ev rest ih =>
      have hrest : ChannelEvent.processCrash ∉ rest :=
        fun hr => h (List.mem_cons_of_mem _ hr)
      cases ev with
      | resolveKnownFail =>
          rw [show scrapeChannelLoop stats (ChannelEvent.resolveKnownFail :: rest) =
                scrapeChannelLoop
                  { stats with channels_failed := stats.channels_failed + 1 } rest
              from rfl, ih _ hrest]
          simp [List.countP_cons, List.map_cons, isResolveFail, isOkEvent, eventPosts]
          ring
      | resolveUnexpectedFail =>
          rw [show scrapeChannelLoop stats (ChannelEvent.resolveUnexpectedFail :: rest) =
                scrapeChannelLoop
                  { stats with channels_failed := stats.channels_failed + 1 } rest
              from rfl, ih _ hrest]
          simp [List.countP_cons, List.map_cons, isResolveFail, isOkEvent, eventPosts]
          ring
      | ok n =>
          rw [show scrapeChannelLoop stats (ChannelEvent.ok n :: rest) =
                scrapeChannelLoop
                  { stats with
                      channels_ok := stats.channels_ok + 1
                      posts_processed := stats.posts_processed + n } rest
              from rfl, ih _ hrest]
          simp [List.countP_cons, List.map_cons, isResolveFail, isOkEvent, eventPosts]
          constructor
          · ring
          · ring
      | processCrash => exact absurd (List.mem_cons_self _ _) h

theorem countP_ok_add_fail (events : List ChannelEvent)
    (h : ChannelEvent.processCrash ∉ events) :
    events.countP isOkEvent + events.countP isResolveFail = events.length := by
  induction events with
  | nil => rfl
  | cons ev rest ih =>
      have hrest : ChannelEvent.processCrash ∉ rest :=
        fun hr => h (List.mem_cons_of_mem _ hr)
      have hr := ih hrest
      cases ev with
      | resolveKnownFail =>
          simp [List.countP_cons, isOkEvent, isResolveFail]
          omega
      | resolveUnexpectedFail =>
          simp [List.countP_cons, isOkEvent, isResolveFail]
          omega
      | ok n =>
          simp [List.countP_cons, isOkEvent, isResolveFail]
          omega
      | processCrash => exact absurd (List.mem_cons_self _ _) h

/-- C1 (amended): errors raised while *resolving* a channel — both the
three known Telethon errors and any other unexpected exception from
`get_entity` — are caught, logged, counted in the failed tally, and the
run continues with the remaining channels; for a run in which no exception
is raised after resolution, the run-level `ScrapeStats` reports channels
attempted (`channels_total`), succeeded, failed, and total posts processed,
with succeeded + failed = attempted.  (An unexpected error raised *after*
resolution, inside the message loop or the store writes, is not caught and
aborts the run — see the counterexample.) -/
theorem scrape_lookback_amended (events : List ChannelEvent)
    (h : ChannelEvent.processCrash ∉ events) :
    ∃ stats : ScrapeStats, scrape_lookback events = Except.ok stats ∧
      stats.channels_total = (events.length : Int) ∧
      stats.channels_ok = (events.countP isOkEvent : Int) ∧
      stats.channels_failed = (events.countP isResolveFail : Int) ∧
      stats.posts_processed = (events.map eventPosts).sum ∧
      stats.channels_ok + stats.channels_failed = stats.channels_total := by
  refine ⟨_, scrapeChannelLoop_spec events _ h, rfl, by simp, by simp, by simp, ?_⟩
  have h2 := countP_ok_add_fail events h
  simp only []
  omega

/-! ### C2: idempotent ingestion -/

theorem countP_le_one_of_pairwise {α : Type} {R : α → α → Prop} {l : List α}
    (hpw : l.Pairwise R) (p : α → Bool)
    (hp : ∀ a b, p a = true → p b = true → R a b → False) :
    l.countP p ≤ 1 := by
  induction l with
  | nil => simp
  | cons x rest ih =>
      obtain ⟨hx, hrest⟩ := List.pairwise_cons.mp hpw
      by_cases hpx : p x = true
      · have hz : rest.countP p = 0 := by
          rw [List.countP_eq_zero]
          intro a ha hpa
          exact hp x a hpx hpa (hx a ha)
        rw [List.countP_cons, hz, hpx]
        simp
      · have hpx' : p x = false := by simpa using hpx
        rw [List.countP_cons, hpx']
        simpa using ih hrest

theorem postMatches_updatePostRow (ch mid : Int) (f : PostFields) (r : PostRow) :
    postMatches ch mid (updatePostRow f r) = postMatches ch mid r := rfl

theorem updatePostRow_id (f : PostFields) (r : PostRow) :
    (updatePostRow f r).id = r.id := rfl

theorem postUpdateFun_matches (ch mid : Int) (f : PostFields) (r : PostRow) :
    postMatches ch mid (postUpdateFun ch mid f r) = postMatches ch mid r := by
  unfold postUpdateFun
  cases hr : postMatches ch mid r with
  | true => simp [postMatches_updatePostRow, hr]
  | false => simp [hr]

theorem find?_map_postUpdate (ch mid : Int) (f : PostFields) (l : List PostRow) :
    (l.map (postUpdateFun ch mid f)).find? (postMatches ch mid) =
      (l.find? (postMatches ch mid)).map (postUpdateFun ch mid f) := by
  induction l with
  | nil => rfl
  | cons r rest ih =>
      rw [List.map_cons]
      cases hr : postMatches ch mid r with
      | true =>
          rw [List.find?_cons_of_pos _ (by rw [postUpdateFun_matches, hr]),
              List.find?_cons_of_pos _ hr]
          rfl
      | false =>
          rw [List.find?_cons_of_neg _
                (by rw [postUpdateFun_matches, hr]; exact Bool.false_ne_true),
              List.find?_cons_of_neg _ (by rw [hr]; exact Bool.false_ne_true), ih]

theorem countP_map_postUpdate (ch mid : Int) (f : PostFields) (l : List PostRow) :
    (l.map (postUpdateFun ch mid f)).countP (postMatches ch mid) =
      l.countP (postMatches ch mid) := by
  induction l with
  | nil => rfl
  | cons r rest ih =>
      rw [List.map_cons, List.countP_cons, List.countP_cons, ih, postUpdateFun_matches]


theorem insertedPostRow_matches (pid : Nat) (ch mid : Int) (f : PostFields) :
    postMatches ch mid (insertedPostRow pid ch mid f) = true := by
  simp [postMatches, insertedPostRow]

theorem upsert_post_ok (db : DB) (ch mid : Int) (f : PostFields)
    (hcount : db.posts.countP (postMatches ch mid) ≤ 1) :
    ∃ pid db',
      upsert_post db ch mid f = some (pid, db') ∧
      db'.posts.countP (postMatches ch mid) = 1 ∧
      (∃ r, db'.posts.find? (postMatches ch mid) = some r ∧ r.id = pid) ∧
      db'.links = db.links ∧ db'.snapshots = db.snapshots ∧
      db'.next_link_id = db.next_link_id ∧ db'.next_snap_id = db.next_snap_id := by
  cases hhit : db.posts.any (postMatches ch mid) with
  | true =>
      obtain ⟨r0, hr0mem, hr0⟩ := List.any_eq_true.mp hhit
      obtain ⟨r1, hr1⟩ :=
        Option.isSome_iff_exists.mp (List.find?_isSome.mpr ⟨r0, hr0mem, hr0⟩)
      have hcnt1 : db.posts.countP (postMatches ch mid) = 1 := by
        have hpos : 0 < db.posts.countP (postMatches ch mid) :=
          List.countP_pos_iff.mpr ⟨r0, hr0mem, hr0⟩
        omega
      refine ⟨r1.id,
        { db with posts := db.posts.map (postUpdateFun ch mid f) },
        ?_, ?_, ⟨postUpdateFun ch mid f r1, ?_, ?_⟩, rfl, rfl, rfl, rfl⟩
      · have hrp1 : postMatches ch mid r1 = true := List.find?_some hr1
        have hid1 : (postUpdateFun ch mid f r1).id = r1.id := by
          unfold postUpdateFun
          rw [if_pos hrp1, updatePostRow_id]
        simp only [upsert_post, hhit, if_true]
        rw [find?_map_postUpdate, hr1]
        show some ((postUpdateFun ch mid f r1).id, _) = _
        rw [hid1]
      · show (db.posts.map (postUpdateFun ch mid f)).countP (postMatches ch mid) = 1
        rw [countP_map_postUpdate]
        exact hcnt1
      · show (db.posts.map (postUpdateFun ch mid f)).find? (postMatches ch mid) =
          some (postUpdateFun ch mid f r1)
        rw [find?_map_postUpdate, hr1]
        rfl
      · have hrp : postMatches ch mid r1 = true := List.find?_some hr1
        unfold postUpdateFun
        rw [if_pos hrp, updatePostRow_id]
  | false =>
      have hnone : db.posts.find? (postMatches ch mid) = none := by
        rw [List.find?_eq_none]
        intro r hr hrp
        exact absurd (List.any_eq_true.mpr ⟨r, hr, hrp⟩)
          (by rw [hhit]; exact Bool.false_ne_true)
      have hcnt0 : db.posts.countP (postMatches ch mid) = 0 := by
        rw [List.countP_eq_zero]
        intro r hr hrp
        exact absurd (List.any_eq_true.mpr ⟨r, hr, hrp⟩)
          (by rw [hhit]; exact Bool.false_ne_true)
      refine ⟨db.next_post_id,
        { db with
            posts := db.posts ++ [insertedPostRow db.next_post_id ch mid f]
            next_post_id := db.next_post_id + 1 },
        ?_, ?_, ⟨insertedPostRow db.next_post_id ch mid f, ?_, rfl⟩, rfl, rfl, rfl, rfl⟩
      · simp only [upsert_post, hhit, Bool.false_eq_true, if_false]
        rw [List.find?_append, hnone]
        simp only [Option.none_or]
        rw [List.find?_cons_of_pos _ (insertedPostRow_matches db.next_post_id ch mid f)]
        rfl
      · show (db.posts ++ [insertedPostRow db.next_post_id ch mid f]).countP
            (postMatches ch mid) = 1
        rw [List.countP_append, hcnt0, List.countP_cons,
            insertedPostRow_matches db.next_post_id ch mid f]
        rfl
      · show (db.posts ++ [insertedPostRow db.next_post_id ch mid f]).find?
            (postMatches ch mid) = some (insertedPostRow db.next_post_id ch mid f)
        rw [List.find?_append, hnone]
        simp only [Option.none_or]
        rw [List.find?_cons_of_pos _ (insertedPostRow_matches db.next_post_id ch mid f)]

theorem upsert_post_existing (db : DB) (ch mid : Int) (f : PostFields) (r : PostRow)
    (hfind : db.posts.find? (postMatches ch mid) = some r) :
    ∃ db',
      upsert_post db ch mid f = some (r.id, db') ∧
      db'.posts.countP (postMatches ch mid) = db.posts.countP (postMatches ch mid) ∧
      db'.posts.find? (postMatches ch mid) = some (postUpdateFun ch mid f r) ∧
      (postUpdateFun ch mid f r).id = r.id ∧
      db'.links = db.links ∧ db'.snapshots = db.snapshots ∧
      db'.next_link_id = db.next_link_id ∧ db'.next_snap_id = db.next_snap_id := by
  have hrmem := List.mem_of_find?_eq_some hfind
  have hrp : postMatches ch mid r = true := List.find?_some hfind
  have hhit : db.posts.any (postMatches ch mid) = true :=
    List.any_eq_true.mpr ⟨r, hrmem, hrp⟩
  have hid : (postUpdateFun ch mid f r).id = r.id := by
    unfold postUpdateFun
    rw [if_pos hrp, updatePostRow_id]
  refine ⟨{ db with posts := db.posts.map (postUpdateFun ch mid f) },
    ?_, ?_, ?_, hid, rfl, rfl, rfl, rfl⟩
  · simp only [upsert_post, hhit, if_true]
    rw [find?_map_postUpdate, hfind]
    show some ((postUpdateFun ch mid f r).id, _) = _
    rw [hid]
  · show (db.posts.map (postUpdateFun ch mid f)).countP (postMatches ch mid) =
      db.posts.countP (postMatches ch mid)
    rw [countP_map_postUpdate]
  · show (db.posts.map (postUpdateFun ch mid f)).find? (postMatches ch mid) =
      some (postUpdateFun ch mid f r)
    rw [find?_map_postUpdate, hfind]
    rfl

theorem snapUpdateFun_post_id (pid : Nat) (day total : Int) (rs : List (String × Int))
    (v fo : Option Int) (s : SnapRow) :
    (snapUpdateFun pid day total rs v fo s).post_id = s.post_id := by
  unfold snapUpdateFun
  split <;> rfl

theorem snapUpdateFun_date (pid : Nat) (day total : Int) (rs : List (String × Int))
    (v fo : Option Int) (s : SnapRow) :
    (snapUpdateFun pid day total rs v fo s).snapshot_date = s.snapshot_date := by
  unfold snapUpdateFun
  split <;> rfl

theorem snapMatches_snapUpdateFun (q : Nat) (d : Int) (pid : Nat) (day total : Int)
    (rs : List (String × Int)) (v fo : Option Int) (s : SnapRow) :
    snapMatches q d (snapUpdateFun pid day total rs v fo s) = snapMatches q d s := by
  unfold snapMatches
  rw [snapUpdateFun_post_id, snapUpdateFun_date]

theorem countP_map_snapUpdate (q : Nat) (d : Int) (pid : Nat) (day total : Int)
    (rs : List (String × Int)) (v fo : Option Int) (l : List SnapRow) :
    (l.map (snapUpdateFun pid day total rs v fo)).countP (snapMatches q d) =
      l.countP (snapMatches q d) := by
  induction l with
  | nil => rfl
  | cons s rest ih =>
      rw [List.map_cons, List.countP_cons, List.countP_cons, ih, snapMatches_snapUpdateFun]

theorem insertedSnapRow_matches (sid pid : Nat) (day total : Int)
    (rs : List (String × Int)) (v fo : Option Int) :
    snapMatches pid day (insertedSnapRow sid pid day total rs v fo) = true := by
  simp [snapMatches, insertedSnapRow]

theorem upsert_snapshot_frame (db : DB) (pid : Nat) (day total : Int)
    (rs : List (String × Int)) (v fo : Option Int) :
    (upsert_snapshot db pid day total rs v fo).posts = db.posts ∧
    (upsert_snapshot db pid day total rs v fo).links = db.links ∧
    (upsert_snapshot db pid day total rs v fo).next_post_id = db.next_post_id ∧
    (upsert_snapshot db pid day total rs v fo).next_link_id = db.next_link_id := by
  unfold upsert_snapshot
  split <;> exact ⟨rfl, rfl, rfl, rfl⟩

theorem upsert_snapshot_count (db : DB) (pid : Nat) (day total : Int)
    (rs : List (String × Int)) (v fo : Option Int)
    (h : db.snapshots.countP (snapMatches pid day) ≤ 1) :
    (upsert_snapshot db pid day total rs v fo).snapshots.countP (snapMatches pid day) = 1 := by
  unfold upsert_snapshot
  cases hany : db.snapshots.any (snapMatches pid day) with
  | true =>
      obtain ⟨s0, hs0, hs0m⟩ := List.any_eq_true.mp hany
      have hpos : 0 < db.snapshots.countP (snapMatches pid day) :=
        List.countP_pos_iff.mpr ⟨s0, hs0, hs0m⟩
      rw [if_pos rfl]
      show (db.snapshots.map (snapUpdateFun pid day total rs v fo)).countP
        (snapMatches pid day) = 1
      rw [countP_map_snapUpdate]
      omega
  | false =>
      have hcnt0 : db.snapshots.countP (snapMatches pid day) = 0 := by
        rw [List.countP_eq_zero]
        intro s hs hsm
        exact absurd (List.any_eq_true.mpr ⟨s, hs, hsm⟩)
          (by rw [hany]; exact Bool.false_ne_true)
      rw [if_neg Bool.false_ne_true]
      show (db.snapshots ++
        [insertedSnapRow db.next_snap_id pid day total rs v fo]).countP
        (snapMatches pid day) = 1
      rw [List.countP_append, hcnt0, List.countP_cons, insertedSnapRow_matches]
      rfl

theorem upsert_snapshot_append (db : DB) (pid : Nat) (day total : Int)
    (rs : List (String × Int)) (v fo : Option Int)
    (h0 : db.snapshots.countP (snapMatches pid day) = 0) :
    (upsert_snapshot db pid day total rs v fo).snapshots =
      db.snapshots ++ [insertedSnapRow db.next_snap_id pid day total rs v fo] := by
  have hany : db.snapshots.any (snapMatches pid day) = false := by
    cases hany : db.snapshots.any (snapMatches pid day) with
    | false => rfl
    | true =>
        obtain ⟨s0, hs0, hs0m⟩ := List.any_eq_true.mp hany
        have hpos : 0 < db.snapshots.countP (snapMatches pid day) :=
          List.countP_pos_iff.mpr ⟨s0, hs0, hs0m⟩
        omega
  unfold upsert_snapshot
  rw [if_neg (by rw [hany]; exact Bool.false_ne_true)]

/-- The `(url, link_type)` pairs currently stored for one post. -/
def linkPairsFor (db : DB) (pid : Nat) : List (String × String) :=
  (db.links.filter (fun r => r.post_id == pid)).map (fun r => (r.url, r.link_type))

/-- The effect of `INSERT OR IGNORE` on the pair list of a post: pairs are
appended in order, dropping any pair whose url is already present. -/
def insertPairs (acc : List (String × String)) : List (String × String) → List (String × String)
  | [] => acc
  | p :: rest =>
      if acc.any (fun q => q.1 == p.1) then insertPairs acc rest
      else insertPairs (acc ++ [p]) rest

theorem insertPairs_cons (acc : List (String × String)) (p : String × String)
    (rest : List (String × String)) :
    insertPairs acc (p :: rest) =
      if acc.any (fun q => q.1 == p.1) then insertPairs acc rest
      else insertPairs (acc ++ [p]) rest := rfl

theorem any_pairs_eq (l : List LinkRow) (pid : Nat) (u : String) :
    ((l.filter (fun r => r.post_id == pid)).map (fun r => (r.url, r.link_type))).any
        (fun q => q.1 == u) =
      l.any (fun r => r.post_id == pid && r.url == u) := by
  induction l with
  | nil => rfl
  | cons r rest ih =>
      cases hp : (r.post_id == pid) with
      | true => simp [List.filter_cons, hp, ih]
      | false => simp [List.filter_cons, hp, ih]

theorem insertLinkIgnore_pairs (db : DB) (pid : Nat) (u t : String) :
    linkPairsFor (insertLinkIgnore db pid u t) pid =
      (if (linkPairsFor db pid).any (fun q => q.1 == u) then linkPairsFor db pid
       else linkPairsFor db pid ++ [(u, t)]) := by
  unfold insertLinkIgnore
  rw [show ((linkPairsFor db pid).any (fun q => q.1 == u)) =
        db.links.any (fun r => r.post_id == pid && r.url == u)
      from any_pairs_eq db.links pid u]
  cases hany : db.links.any (fun r => r.post_id == pid && r.url == u) with
  | true => rw [if_pos rfl, if_pos rfl]
  | false =>
      rw [if_neg Bool.false_ne_true, if_neg Bool.false_ne_true]
      simp [linkPairsFor, List.filter_append, List.filter_cons]

theorem insertLinkIgnore_frame (db : DB) (pid : Nat) (u t : String) :
    (insertLinkIgnore db pid u t).posts = db.posts ∧
    (insertLinkIgnore db pid u t).snapshots = db.snapshots ∧
    (insertLinkIgnore db pid u t).next_post_id = db.next_post_id ∧
    (insertLinkIgnore db pid u t).next_snap_id = db.next_snap_id := by
  unfold insertLinkIgnore
  split <;> exact ⟨rfl, rfl, rfl, rfl⟩

theorem foldInsert_spec (ps : List (String × String)) (db : DB) (pid : Nat) :
    linkPairsFor (ps.foldl (fun d p => insertLinkIgnore d pid p.1 p.2) db) pid =
      insertPairs (linkPairsFor db pid) ps ∧
    (ps.foldl (fun d p => insertLinkIgnore d pid p.1 p.2) db).posts = db.posts ∧
    (ps.foldl (fun d p => insertLinkIgnore d pid p.1 p.2) db).snapshots = db.snapshots ∧
    (ps.foldl (fun d p => insertLinkIgnore d pid p.1 p.2) db).next_post_id = db.next_post_id ∧
    (ps.foldl (fun d p => insertLinkIgnore d pid p.1 p.2) db).next_snap_id = db.next_snap_id := by
  induction ps generalizing db with
  | nil => exact ⟨rfl, rfl, rfl, rfl, rfl⟩
  | cons p rest ih =>
      obtain ⟨ihp, ihposts, ihsnaps, ihnp, ihns⟩ := ih (insertLinkIgnore db pid p.1 p.2)
      obtain ⟨hfp, hfs, hfnp, hfns⟩ := insertLinkIgnore_frame db pid p.1 p.2
      refine ⟨?_, ?_, ?_, ?_, ?_⟩
      · rw [List.foldl_cons, ihp, insertLinkIgnore_pairs, insertPairs_cons]
        cases hany : (linkPairsFor db pid).any (fun q => q.1 == p.1) with
        | true => rw [if_pos rfl, if_pos rfl]
        | false => rw [if_neg Bool.false_ne_true, if_neg Bool.false_ne_true]
      · rw [List.foldl_cons, ihposts, hfp]
      · rw [List.foldl_cons, ihsnaps, hfs]
      · rw [List.foldl_cons, ihnp, hfnp]
      · rw [List.foldl_cons, ihns, hfns]

theorem replace_links_spec (db : DB) (pid : Nat) (ps : List (String × String)) :
    linkPairsFor (replace_links db pid ps) pid = insertPairs [] ps ∧
    (replace_links db pid ps).posts = db.posts ∧
    (replace_links db pid ps).snapshots = db.snapshots ∧
    (replace_links db pid ps).next_post_id = db.next_post_id ∧
    (replace_links db pid ps).next_snap_id = db.next_snap_id := by
  unfold replace_links
  have hdel : linkPairsFor
      { db with links := db.links.filter (fun r => !(r.post_id == pid)) } pid = [] := by
    unfold linkPairsFor
    show ((db.links.filter (fun r => !(r.post_id == pid))).filter
      (fun r => r.post_id == pid)).map (fun r => (r.url, r.link_type)) = []
    rw [List.filter_filter]
    have hff : ∀ r : LinkRow, ((r.post_id == pid) && !(r.post_id == pid)) = false := by
      intro r
      cases h : (r.post_id == pid) <;> simp [h]
    simp only [hff, List.filter_false, List.map_nil]
  obtain ⟨hp, hposts, hsnaps, hnp, hns⟩ :=
    foldInsert_spec ps { db with links := db.links.filter (fun r => !(r.post_id == pid)) } pid
  exact ⟨by rw [hp, hdel], hposts, hsnaps, hnp, hns⟩

theorem insertPairs_eq_of_nodup (ps acc : List (String × String))
    (hdisj : ∀ p ∈ ps, ∀ q ∈ acc, ¬(q.1 = p.1))
    (hnd : (ps.map Prod.fst).Nodup) :
    insertPairs acc ps = acc ++ ps := by
  induction ps generalizing acc with
  | nil => simp [insertPairs]
  | cons p rest ih =>
      have hany : acc.any (fun q => q.1 == p.1) = false := by
        cases hany : acc.any (fun q => q.1 == p.1) with
        | false => rfl
        | true =>
            obtain ⟨q, hq, hqp⟩ := List.any_eq_true.mp hany
            exact absurd (by simpa using hqp) (hdisj p (List.mem_cons_self _ _) q hq)
      rw [List.map_cons] at hnd
      obtain ⟨hhead, hndrest⟩ := List.nodup_cons.mp hnd
      rw [insertPairs_cons, if_neg (by rw [hany]; exact Bool.false_ne_true)]
      have hdisj' : ∀ x ∈ rest, ∀ q ∈ acc ++ [p], ¬(q.1 = x.1) := by
        intro x hx q hq
        rcases List.mem_append.mp hq with hq' | hq'
        · exact hdisj x (List.mem_cons_of_mem _ hx) q hq'
        · rw [List.mem_singleton] at hq'
          subst hq'
          intro hpx
          exact hhead (hpx ▸ List.mem_map_of_mem Prod.fst hx)
      rw [ih (acc ++ [p]) hdisj' hndrest, List.append_assoc]
      rfl

theorem map_fst_links_with_types (urls : List String) :
    (links_with_types urls).map Prod.fst = urls := by
  rw [links_with_types, List.map_map]
  exact List.map_id urls

theorem linkPairsFor_eq_links (db db' : DB) (pid : Nat) (h : db.links = db'.links) :
    linkPairsFor db pid = linkPairsFor db' pid := by
  unfold linkPairsFor
  rw [h]

/-- C2: ingestion is idempotent per post per day.  From a well-formed store,
ingesting the identical message twice on the same day resolves the same
post id both times and leaves exactly one post row for the message's
`(channel_id, message_id)` identity, exactly one snapshot row for
`(post_id, snapshot_date)`, and a link set equal to the freshly derived
`links_with_types` pairs with no duplicate URLs (hence no stale links);
ingesting the same message on a day with no existing snapshot for the post
overwrites nothing in the snapshots table and appends exactly one new
snapshot row. -/
theorem ingest_idempotent_claim (db0 : DB) (m : ScrapedMsg) (day : Int)
    (hwf : WF db0) (hurls : m.urls.Nodup) :
    ∃ pid db1 db2,
      ingestMessage db0 day m = some (pid, db1) ∧
      ingestMessage db1 day m = some (pid, db2) ∧
      db2.posts.countP (postMatches m.channel_id m.message_id) = 1 ∧
      db2.snapshots.countP (snapMatches pid day) = 1 ∧
      linkPairsFor db2 pid = links_with_types m.urls ∧
      ((linkPairsFor db2 pid).map Prod.fst).Nodup ∧
      (∀ day2, db2.snapshots.countP (snapMatches pid day2) = 0 →
        ∃ db3 s3, ingestMessage db2 day2 m = some (pid, db3) ∧
          db3.snapshots = db2.snapshots ++ [s3] ∧
          s3.post_id = pid ∧ s3.snapshot_date = day2) := by
  have hcount0 : db0.posts.countP (postMatches m.channel_id m.message_id) ≤ 1 := by
    refine countP_le_one_of_pairwise hwf.1 _ ?_
    intro a b ha hb hR
    apply hR
    simp only [postMatches, Bool.and_eq_true, beq_iff_eq] at ha hb
    exact ⟨ha.1.trans hb.1.symm, ha.2.trans hb.2.symm⟩
  have hsnapLe : ∀ (q : Nat) (d : Int), db0.snapshots.countP (snapMatches q d) ≤ 1 := by
    intro q d
    refine countP_le_one_of_pairwise hwf.2.2.2.1 _ ?_
    intro a b ha hb hR
    apply hR
    simp only [snapMatches, Bool.and_eq_true, beq_iff_eq] at ha hb
    exact ⟨ha.1.trans hb.1.symm, ha.2.trans hb.2.symm⟩
  obtain ⟨pid, dbA, hupA, hcntA, ⟨rA, hfindA, hidA⟩, hlinksA, hsnapsA, hnlA, hnsA⟩ :=
    upsert_post_ok db0 m.channel_id m.message_id
      ⟨m.channel_username, m.channel_title, m.post_url, m.post_datetime,
       m.message_text, m.views, m.forwards⟩ hcount0
  obtain ⟨hBp, hBposts, hBsnaps, hBnp, hBns⟩ :=
    replace_links_spec dbA pid (links_with_types m.urls)
  have hpairs : insertPairs [] (links_with_types m.urls) = links_with_types m.urls := by
    have := insertPairs_eq_of_nodup (links_with_types m.urls) []
      (by intro p hp q hq; cases hq)
      (by rw [map_fst_links_with_types]; exact hurls)
    simpa using this
  obtain ⟨h1posts, h1links, h1np, h1nl⟩ :=
    upsert_snapshot_frame (replace_links dbA pid (links_with_types m.urls)) pid day
      (total_reactions m.reactions_map) m.reactions_map m.views m.forwards
  have h1snapcnt :
      (upsert_snapshot (replace_links dbA pid (links_with_types m.urls)) pid day
        (total_reactions m.reactions_map) m.reactions_map m.views
        m.forwards).snapshots.countP (snapMatches pid day) = 1 := by
    refine upsert_snapshot_count _ pid day _ _ _ _ ?_
    rw [hBsnaps, hsnapsA]
    exact hsnapLe pid day
  -- facts about db1
  have h1postsA :
      (upsert_snapshot (replace_links dbA pid (links_with_types m.urls)) pid day
        (total_reactions m.reactions_map) m.reactions_map m.views
        m.forwards).posts = dbA.posts := by
    rw [h1posts, hBposts]
  have h1pairs :
      linkPairsFor (upsert_snapshot (replace_links dbA pid (links_with_types m.urls)) pid
        day (total_reactions m.reactions_map) m.reactions_map m.views m.forwards) pid =
      links_with_types m.urls := by
    rw [linkPairsFor_eq_links _ (replace_links dbA pid (links_with_types m.urls)) pid h1links,
        hBp, hpairs]
  -- second ingest
  obtain ⟨dbC, hupC, hcntC, hfindC, hidC, hlinksC, hsnapsC, hnlC, hnsC⟩ :=
    upsert_post_existing
      (upsert_snapshot (replace_links dbA pid (links_with_types m.urls)) pid day
        (total_reactions m.reactions_map) m.reactions_map m.views m.forwards)
      m.channel_id m.message_id
      ⟨m.channel_username, m.channel_title, m.post_url, m.post_datetime,
       m.message_text, m.views, m.forwards⟩ rA (by rw [h1postsA]; exact hfindA)
  obtain ⟨hDp, hDposts, hDsnaps, hDnp, hDns⟩ :=
    replace_links_spec dbC pid (links_with_types m.urls)
  obtain ⟨h2posts, h2links, h2np, h2nl⟩ :=
    upsert_snapshot_frame (replace_links dbC pid (links_with_types m.urls)) pid day
      (total_reactions m.reactions_map) m.reactions_map m.views m.forwards
  refine ⟨pid,
    upsert_snapshot (replace_links dbA pid (links_with_types m.urls)) pid day
      (total_reactions m.reactions_map) m.reactions_map m.views m.forwards,
    upsert_snapshot (replace_links dbC pid (links_with_types m.urls)) pid day
      (total_reactions m.reactions_map) m.reactions_map m.views m.forwards,
    ?_, ?_, ?_, ?_, ?_, ?_, ?_⟩
  · unfold ingestMessage
    rw [hupA]
  · unfold ingestMessage
    rw [hupC, hidA]
  · rw [h2posts, hDposts]
    exact hcntC.trans (by rw [h1postsA]; exact hcntA)
  · refine upsert_snapshot_count _ pid day _ _ _ _ ?_
    rw [hDsnaps, hsnapsC, h1snapcnt]
  · rw [linkPairsFor_eq_links _ (replace_links dbC pid (links_with_types m.urls)) pid h2links,
        hDp, hpairs]
  · rw [linkPairsFor_eq_links _ (replace_links dbC pid (links_with_types m.urls)) pid h2links,
        hDp, hpairs, map_fst_links_with_types]
    exact hurls
  · intro day2 hcnt0
    obtain ⟨dbE, hupE, hcntE, hfindE, hidE, hlinksE, hsnapsE, hnlE, hnsE⟩ :=
      upsert_post_existing
        (upsert_snapshot (replace_links dbC pid (links_with_types m.urls)) pid day
          (total_reactions m.reactions_map) m.reactions_map m.views m.forwards)
        m.channel_id m.message_id
        ⟨m.channel_username, m.channel_title, m.post_url, m.post_datetime,
         m.message_text, m.views, m.forwards⟩ (postUpdateFun m.channel_id m.message_id
          ⟨m.channel_username, m.channel_title, m.post_url, m.post_datetime,
           m.message_text, m.views, m.forwards⟩ rA)
        (by rw [h2posts, hDposts]; exact hfindC)
    obtain ⟨hFp, hFposts, hFsnaps, hFnp, hFns⟩ :=
      replace_links_spec dbE pid (links_with_types m.urls)
    have hcntF : (replace_links dbE pid (links_with_types m.urls)).snapshots.countP
        (snapMatches pid day2) = 0 := by
      rw [hFsnaps, hsnapsE]
      exact hcnt0
    refine ⟨upsert_snapshot (replace_links dbE pid (links_with_types m.urls)) pid day2
        (total_reactions m.reactions_map) m.reactions_map m.views m.forwards,
      insertedSnapRow (replace_links dbE pid (links_with_types m.urls)).next_snap_id pid
        day2 (total_reactions m.reactions_map) m.reactions_map m.views m.forwards,
      ?_, ?_, rfl, rfl⟩
    · unfold ingestMessage
      rw [hupE]
      have : (postUpdateFun m.channel_id m.message_id
          ⟨m.channel_username, m.channel_title, m.post_url, m.post_datetime,
           m.message_text, m.views, m.forwards⟩ rA).id = pid := by
        rw [hidC, hidA]
      rw [this]
    · rw [upsert_snapshot_append _ pid day2 _ _ _ _ hcntF, hFsnaps, hsnapsE]

/-- Witness for `ingest_idempotent_claim`: a concrete message ingested into
the fresh (empty) store. -/
theorem ingest_idempotent_claim_witness :
    ∃ pid db1 db2,
      ingestMessage emptyDB 0
        { channel_id := 1, channel_username := some "chan", channel_title := "Chan",
          message_id := 10, post_url := some "https://t.me/chan/10",
          post_datetime := 100, message_text := some "text", views := some 5,
          forwards := some 1, urls := ["https://github.com/org/repo"],
          reactions_map := [("x", 2)] } = some (pid, db1) ∧
      ingestMessage db1 0
        { channel_id := 1, channel_username := some "chan", channel_title := "Chan",
          message_id := 10, post_url := some "https://t.me/chan/10",
          post_datetime := 100, message_text := some "text", views := some 5,
          forwards := some 1, urls := ["https://github.com/org/repo"],
          reactions_map := [("x", 2)] } = some (pid, db2) ∧
      db2.posts.countP (postMatches 1 10) = 1 ∧
      db2.snapshots.countP (snapMatches pid 0) = 1 ∧
      linkPairsFor db2 pid =
        links_with_types ["https://github.com/org/repo"] ∧
      ((linkPairsFor db2 pid).map Prod.fst).Nodup ∧
      (∀ day2, db2.snapshots.countP (snapMatches pid day2) = 0 →
        ∃ db3 s3,
          ingestMessage db2 day2
            { channel_id := 1, channel_username := some "chan", channel_title := "Chan",
              message_id := 10, post_url := some "https://t.me/chan/10",
              post_datetime := 100, message_text := some "text", views := some 5,
              forwards := some 1, urls := ["https://github.com/org/repo"],
              reactions_map := [("x", 2)] } = some (pid, db3) ∧
          db3.snapshots = db2.snapshots ++ [s3] ∧
          s3.post_id = pid ∧ s3.snapshot_date = day2) :=
  ingest_idempotent_claim emptyDB
    { channel_id := 1, channel_username := some "chan", channel_title := "Chan",
      message_id := 10, post_url := some "https://t.me/chan/10",
      post_datetime := 100, message_text := some "text", views := some 5,
      forwards := some 1, urls := ["https://github.com/org/repo"],
      reactions_map := [("x", 2)] } 0 (by decide) (by decide)

/-! ### C4: ranking order -/

/-- C4: the ranked candidate rows are ordered by latest in-window reactions
descending, then growth descending, then post timestamp descending; in
particular any two candidates with equal latest reactions and equal growth
appear in descending (non-increasing) order of post timestamp. -/
theorem ranking_order_claim :
    (∀ (db : DB) (start : Int), (rankedRows db start).Pairwise candBefore) ∧
    (∀ (db : DB) (start : Int) (a b : CandRow),
      [a, b].Sublist (rankedRows db start) →
      a.latest_reactions = b.latest_reactions →
      a.reactions_growth = b.reactions_growth →
      b.post_datetime ≤ a.post_datetime) := by
  constructor
  · intro db start
    exact List.sorted_insertionSort candBefore (candRows db start)
  · intro db start a b hsub h1 h2
    have hpw : (rankedRows db start).Pairwise candBefore :=
      List.sorted_insertionSort candBefore (candRows db start)
    have hab : candBefore a b := List.pairwise_iff_forall_sublist.mp hpw hsub
    unfold candBefore at hab
    omega

/-- A two-post store with equal latest reactions and equal growth,
distinguished only by post timestamp. -/
def tieDB : DB :=
  { posts :=
      [{ id := 0, channel_id := 1, channel_username := none, channel_title := "A",
         message_id := 11, post_url := none, post_datetime := 50,
         message_text := none, views := none, forwards := none },
       { id := 1, channel_id := 1, channel_username := none, channel_title := "B",
         message_id := 12, post_url := none, post_datetime := 80,
         message_text := none, views := none, forwards := none }],
    links := [], snapshots :=
      [{ id := 0, post_id := 0, snapshot_date := 5, total_reactions := 7,
         reactions_json := [], views := none, forwards := none },
       { id := 1, post_id := 1, snapshot_date := 5, total_reactions := 7,
         reactions_json := [], views := none, forwards := none }],
    next_post_id := 2, next_link_id := 0, next_snap_id := 2 }

/-- The candidate row of the later (timestamp 80) post of `tieDB`. -/
def tieRowLate : CandRow :=
  { post_id := 1, channel_title := "B", channel_username := none, message_id := 12,
    post_url := none, post_datetime := 80, message_text := none,
    latest_reactions := 7, reactions_growth := 0, latest_views := none,
    latest_forwards := none }

/-- The candidate row of the earlier (timestamp 50) post of `tieDB`. -/
def tieRowEarly : CandRow :=
  { post_id := 0, channel_title := "A", channel_username := none, message_id := 11,
    post_url := none, post_datetime := 50, message_text := none,
    latest_reactions := 7, reactions_growth := 0, latest_views := none,
    latest_forwards := none }

/-- Witness for `ranking_order_claim`: in `tieDB` the two tied posts come
out with the later timestamp first. -/
theorem ranking_order_claim_witness :
    rankedRows tieDB 0 = [tieRowLate, tieRowEarly] ∧
    tieRowEarly.post_datetime ≤ tieRowLate.post_datetime := by
  have heq : rankedRows tieDB 0 = [tieRowLate, tieRowEarly] := by decide
  refine ⟨heq, ?_⟩
  refine ranking_order_claim.2 tieDB 0 tieRowLate tieRowEarly ?_ (by decide) (by decide)
  rw [heq]

/-! ### C3: ranking window and growth -/

theorem listMaxD_cons (a : Int) (rest : List Int) :
    ∃ x, listMaxD (a :: rest) = some x ∧ x ∈ a :: rest ∧ ∀ y ∈ a :: rest, y ≤ x := by
  induction rest generalizing a with
  | nil =>
      refine ⟨a, rfl, List.mem_singleton.mpr rfl, ?_⟩
      intro y hy
      rw [List.mem_singleton] at hy
      exact le_of_eq hy
  | cons b rest ih =>
      obtain ⟨x, hx, hxmem, hxub⟩ := ih b
      refine ⟨max a x, ?_, ?_, ?_⟩
      · rw [show listMaxD (a :: b :: rest) =
            (match listMaxD (b :: rest) with
             | none => some a
             | some m => some (max a m)) from rfl, hx]
      · rcases max_choice a x with h | h
        · rw [h]
          exact List.mem_cons_self _ _
        · rw [h]
          exact List.mem_cons_of_mem _ hxmem
      · intro y hy
        rcases List.mem_cons.mp hy with rfl | hy'
        · exact le_max_left _ _
        · exact (hxub y hy').trans (le_max_right _ _)

theorem listMinD_cons (a : Int) (rest : List Int) :
    ∃ x, listMinD (a :: rest) = some x ∧ x ∈ a :: rest ∧ ∀ y ∈ a :: rest, x ≤ y := by
  induction rest generalizing a with
  | nil =>
      refine ⟨a, rfl, List.mem_singleton.mpr rfl, ?_⟩
      intro y hy
      rw [List.mem_singleton] at hy
      exact le_of_eq hy.symm
  | cons b rest ih =>
      obtain ⟨x, hx, hxmem, hxlb⟩ := ih b
      refine ⟨min a x, ?_, ?_, ?_⟩
      · rw [show listMinD (a :: b :: rest) =
            (match listMinD (b :: rest) with
             | none => some a
             | some m => some (min a m)) from rfl, hx]
      · rcases min_choice a x with h | h
        · rw [h]
          exact List.mem_cons_self _ _
        · rw [h]
          exact List.mem_cons_of_mem _ hxmem
      · intro y hy
        rcases List.mem_cons.mp hy with rfl | hy'
        · exact min_le_left _ _
        · exact (min_le_right _ _).trans (hxlb y hy')

/-- C3: with window days `d` (clamped below at 1), under the run invariants
that snapshot keys are unique with valid post references (`WF`) and no
snapshot is dated after today, the ranking query's window is exactly the
inclusive calendar range `[today - (max 1 d - 1), today]`, and every post
with an in-window snapshot gets exactly the growth
`latest.total_reactions - oldest.total_reactions`, which is 0 when it has
a single in-window snapshot. -/
theorem ranking_window_growth_claim (db : DB) (today d : Int)
    (hwf : WF db)
    (hdates : ∀ s ∈ db.snapshots, s.snapshot_date ≤ today) :
    (∀ s : SnapRow, s ∈ windowSnaps db (_window_start today d) ↔
      (s ∈ db.snapshots ∧ today - (max 1 d - 1) ≤ s.snapshot_date ∧
        s.snapshot_date ≤ today)) ∧
    (∀ pid : Nat, (∃ s ∈ windowSnaps db (_window_start today d), s.post_id = pid) →
      ∃ c ∈ candRows db (_window_start today d), c.post_id = pid ∧
        ∃ sl ∈ postWindow db (_window_start today d) pid,
        ∃ so ∈ postWindow db (_window_start today d) pid,
          (∀ s ∈ postWindow db (_window_start today d) pid,
            s.snapshot_date ≤ sl.snapshot_date ∧ so.snapshot_date ≤ s.snapshot_date) ∧
          c.latest_reactions = sl.total_reactions ∧
          c.reactions_growth = sl.total_reactions - so.total_reactions ∧
          ((postWindow db (_window_start today d) pid).length = 1 →
            c.reactions_growth = 0)) := by
  constructor
  · intro s
    unfold windowSnaps _window_start
    rw [List.mem_filter]
    constructor
    · rintro ⟨hmem, hle⟩
      exact ⟨hmem, by simpa using hle, hdates s hmem⟩
    · rintro ⟨hmem, hle, _⟩
      exact ⟨hmem, by simpa using hle⟩
  · rintro pid ⟨s, hsmem, hspid⟩
    have hpidmem : pid ∈ windowPostIds db (_window_start today d) := by
      unfold windowPostIds
      rw [List.mem_dedup]
      exact List.mem_map.mpr ⟨s, hsmem, hspid⟩
    have hsw : s ∈ postWindow db (_window_start today d) pid :=
      List.mem_filter.mpr ⟨hsmem, by simpa using hspid⟩
    obtain ⟨s0, tl, hpw⟩ :
        ∃ s0 tl, postWindow db (_window_start today d) pid = s0 :: tl := by
      cases hpw2 : postWindow db (_window_start today d) pid with
      | nil => rw [hpw2] at hsw; cases hsw
      | cons a b => exact ⟨a, b, rfl⟩
    obtain ⟨ld, hld, hldmem, hldub⟩ := listMaxD_cons s0.snapshot_date
      (tl.map (fun s => s.snapshot_date))
    obtain ⟨od, hod, hodmem, hodlb⟩ := listMinD_cons s0.snapshot_date
      (tl.map (fun s => s.snapshot_date))
    have hmap : (postWindow db (_window_start today d) pid).map
        (fun s => s.snapshot_date) = s0.snapshot_date ::
        tl.map (fun s => s.snapshot_date) := by
      rw [hpw, List.map_cons]
    have hldmem' : ld ∈ (postWindow db (_window_start today d) pid).map
        (fun s => s.snapshot_date) := by rw [hmap]; exact hldmem
    obtain ⟨wl0, hwl0mem, hwl0d⟩ := List.mem_map.mp hldmem'
    have hwlsome : ((postWindow db (_window_start today d) pid).find?
        (fun s => s.snapshot_date == ld)).isSome :=
      List.find?_isSome.mpr ⟨wl0, hwl0mem, by simpa using hwl0d⟩
    obtain ⟨wl, hwl⟩ := Option.isSome_iff_exists.mp hwlsome
    have hwlmem : wl ∈ postWindow db (_window_start today d) pid :=
      List.mem_of_find?_eq_some hwl
    have hwld : wl.snapshot_date = ld := by
      have := List.find?_some hwl
      simpa using this
    have hodmem' : od ∈ (postWindow db (_window_start today d) pid).map
        (fun s => s.snapshot_date) := by rw [hmap]; exact hodmem
    obtain ⟨wo0, hwo0mem, hwo0d⟩ := List.mem_map.mp hodmem'
    have hwosome : ((postWindow db (_window_start today d) pid).find?
        (fun s => s.snapshot_date == od)).isSome :=
      List.find?_isSome.mpr ⟨wo0, hwo0mem, by simpa using hwo0d⟩
    obtain ⟨wo, hwo⟩ := Option.isSome_iff_exists.mp hwosome
    have hwomem : wo ∈ postWindow db (_window_start today d) pid :=
      List.mem_of_find?_eq_some hwo
    have hwod : wo.snapshot_date = od := by
      have := List.find?_some hwo
      simpa using this
    have hsdb : s ∈ db.snapshots := (List.mem_filter.mp hsmem).1
    obtain ⟨p0, hp0mem, hp0id⟩ := hwf.2.2.2.2 s hsdb
    have hpsome : (db.posts.find? (fun p => p.id == pid)).isSome :=
      List.find?_isSome.mpr ⟨p0, hp0mem, by simp [hp0id, hspid]⟩
    obtain ⟨p, hp⟩ := Option.isSome_iff_exists.mp hpsome
    have hbuild : buildCandRow db (_window_start today d) pid = some
        { post_id := pid
          channel_title := p.channel_title
          channel_username := p.channel_username
          message_id := p.message_id
          post_url := p.post_url
          post_datetime := p.post_datetime
          message_text := p.message_text
          latest_reactions := wl.total_reactions
          reactions_growth := wl.total_reactions - wo.total_reactions
          latest_views := wl.views
          latest_forwards := wl.forwards } := by
      simp only [buildCandRow]
      rw [hmap, hld, hod]
      simp only [hwl, hwo, hp]
    refine ⟨_, List.mem_filterMap.mpr ⟨pid, hpidmem, hbuild⟩, rfl, wl, hwlmem,
      wo, hwomem, ?_, rfl, rfl, ?_⟩
    · intro s' hs'
      have hs'd : s'.snapshot_date ∈ s0.snapshot_date ::
          tl.map (fun s => s.snapshot_date) := by
        rw [← hmap]
        exact List.mem_map_of_mem _ hs'
      exact ⟨hwld ▸ hldub s'.snapshot_date hs'd, hwod ▸ hodlb s'.snapshot_date hs'd⟩
    · intro hlen
      obtain ⟨u, hu⟩ := List.length_eq_one.mp hlen
      have hwl1 : wl = u := by
        rw [hu] at hwlmem
        exact List.mem_singleton.mp hwlmem
      have hwo1 : wo = u := by
        rw [hu] at hwomem
        exact List.mem_singleton.mp hwomem
      show wl.total_reactions - wo.total_reactions = 0
      rw [hwl1, hwo1]
      omega

/-- A store with one post and two in-window snapshots (totals 5, then 12). -/
def c3DB : DB :=
  { posts :=
      [{ id := 0, channel_id := 1, channel_username := none, channel_title := "A",
         message_id := 11, post_url := none, post_datetime := 100,
         message_text := none, views := none, forwards := none }],
    links := [],
    snapshots :=
      [{ id := 0, post_id := 0, snapshot_date := 1, total_reactions := 5,
         reactions_json := [], views := none, forwards := none },
       { id := 1, post_id := 0, snapshot_date := 2, total_reactions := 12,
         reactions_json := [], views := none, forwards := none }],
    next_post_id := 1, next_link_id := 0, next_snap_id := 2 }

/-- Witness for `ranking_window_growth_claim` on `c3DB` with a 7-day window
ending on day 2. -/
theorem ranking_window_growth_claim_witness :
    (∀ s : SnapRow, s ∈ windowSnaps c3DB (_window_start 2 7) ↔
      (s ∈ c3DB.snapshots ∧ 2 - (max 1 7 - 1) ≤ s.snapshot_date ∧
        s.snapshot_date ≤ 2)) ∧
    (∀ pid : Nat, (∃ s ∈ windowSnaps c3DB (_window_start 2 7), s.post_id = pid) →
      ∃ c ∈ candRows c3DB (_window_start 2 7), c.post_id = pid ∧
        ∃ sl ∈ postWindow c3DB (_window_start 2 7) pid,
        ∃ so ∈ postWindow c3DB (_window_start 2 7) pid,
          (∀ s ∈ postWindow c3DB (_window_start 2 7) pid,
            s.snapshot_date ≤ sl.snapshot_date ∧ so.snapshot_date ≤ s.snapshot_date) ∧
          c.latest_reactions = sl.total_reactions ∧
          c.reactions_growth = sl.total_reactions - so.total_reactions ∧
          ((postWindow c3DB (_window_start 2 7) pid).length = 1 →
            c.reactions_growth = 0)) :=
  ranking_window_growth_claim c3DB 2 7 (by decide) (by decide)

/-! ### C5: filtering, limit, oversampling -/

theorem topPostsLoop_spec (db : DB) (limit : Int) (re ro rg : Bool)
    (rows : List CandRow) (acc : List TopPost)
    (hlen : (acc.length : Int) < max limit 1) :
    topPostsLoop db limit re ro rg rows acc =
      acc ++ ((rows.filter (passRow db re ro rg)).map (mkTopPost db)).take
        ((max limit 1).toNat - acc.length) := by
  have hml : limit ≤ max limit 1 := le_max_left _ _
  have hm1 : (1 : Int) ≤ max limit 1 := le_max_right _ _
  induction rows generalizing acc with
  | nil => simp [topPostsLoop]
  | cons row rest ih =>
      rw [show topPostsLoop db limit re ro rg (row :: rest) acc =
            (if !passRow db re ro rg row then topPostsLoop db limit re ro rg rest acc
             else
               if limit ≤ ((acc ++ [mkTopPost db row]).length : Int) then
                 acc ++ [mkTopPost db row]
               else topPostsLoop db limit re ro rg rest (acc ++ [mkTopPost db row]))
          from rfl]
      rw [List.filter_cons]
      cases hpass : passRow db re ro rg row with
      | false =>
          rw [if_pos (show (!false) = true from rfl), ih acc hlen]
          simp
      | true =>
          have hfilter : (if (true = true) then row :: rest.filter (passRow db re ro rg)
              else rest.filter (passRow db re ro rg)) =
              row :: rest.filter (passRow db re ro rg) := if_pos rfl
          rw [if_neg (show ¬((!true) = true) from fun h => nomatch h), hfilter,
              List.map_cons]
          have hlen2 : ((acc ++ [mkTopPost db row]).length : Int) =
              (acc.length : Int) + 1 := by
            rw [List.length_append, List.length_singleton]
            push_cast
            ring
          by_cases hstop : limit ≤ ((acc ++ [mkTopPost db row]).length : Int)
          · rw [if_pos hstop]
            have hstop' : limit ≤ (acc.length : Int) + 1 := by
              rw [← hlen2]
              exact hstop
            have hMeq : max limit 1 = (acc.length : Int) + 1 :=
              le_antisymm (max_le hstop' (by omega)) (by omega)
            have hn : (max limit 1).toNat - acc.length = 1 := by omega
            rw [hn]
            simp
          · rw [if_neg hstop]
            have hstop' : ¬(limit ≤ (acc.length : Int) + 1) := by
              rw [← hlen2]
              exact hstop
            rw [ih (acc ++ [mkTopPost db row]) (by rw [hlen2]; omega)]
            rw [List.append_assoc]
            congr 1
            have hn : (max limit 1).toNat - acc.length =
                ((max limit 1).toNat - (acc ++ [mkTopPost db row]).length) + 1 := by
              rw [List.length_append, List.length_singleton]
              omega
            rw [hn, List.take_succ_cons]
            rfl

/-- C5 (amended): the output of `get_top_posts` is the prefix, of length at
most `max(limit, 1)`, of the filter-passing candidates taken in ranked
order from the oversampled candidate set of size `max(10 * limit, 200)`;
every returned post satisfies the link filters (with `require_github`, a
post with no github links never appears); when fewer candidates pass, the
smaller set is returned.  For `limit ≥ 1` the output length is at most
`limit`; for `limit ≤ 0` the loop still returns the first passing
candidate (see the counterexample), hence the `max(limit, 1)` bound. -/
theorem get_top_posts_amended (db : DB) (today lookback limit : Int)
    (re ro rg : Bool) :
    get_top_posts db today lookback limit re ro rg =
      ((((rankedRows db (_window_start today lookback)).take
          (max (limit * 10) 200).toNat).filter (passRow db re ro rg)).map
        (mkTopPost db)).take (max limit 1).toNat ∧
    (get_top_posts db today lookback limit re ro rg).length ≤ (max limit 1).toNat ∧
    (1 ≤ limit →
      ((get_top_posts db today lookback limit re ro rg).length : Int) ≤ limit) ∧
    (∀ p ∈ get_top_posts db today lookback limit re ro rg,
      rg = true → p.github_links ≠ []) := by
  have heq : get_top_posts db today lookback limit re ro rg =
      ((((rankedRows db (_window_start today lookback)).take
          (max (limit * 10) 200).toNat).filter (passRow db re ro rg)).map
        (mkTopPost db)).take (max limit 1).toNat := by
    unfold get_top_posts
    rw [topPostsLoop_spec db limit re ro rg _ [] (by simp)]
    simp
  refine ⟨heq, ?_, ?_, ?_⟩
  · rw [heq]
    exact List.length_take_le _ _
  · intro hlim
    rw [heq]
    have hle := List.length_take_le ((max limit 1).toNat)
      ((((rankedRows db (_window_start today lookback)).take
          (max (limit * 10) 200).toNat).filter (passRow db re ro rg)).map
        (mkTopPost db))
    have h1 : max limit 1 = limit := max_eq_left hlim
    omega
  · intro p hp hrg
    rw [heq] at hp
    have hp' := List.mem_of_mem_take hp
    obtain ⟨c, hc, hcp⟩ := List.mem_map.mp hp'
    have hcpass : passRow db re ro rg c = true := List.of_mem_filter hc
    subst hcp
    subst hrg
    intro hcon
    have hgh : (_split_links (linkRowsFor db c.post_id)).1 = [] := hcon
    simp [passRow, _passes_link_filters, hgh] at hcpass

/-- A store with one post that has a github link and one in-window
snapshot. -/
def c5DB : DB :=
  { posts :=
      [{ id := 0, channel_id := 1, channel_username := none, channel_title := "A",
         message_id := 11, post_url := none, post_datetime := 100,
         message_text := none, views := none, forwards := none }],
    links :=
      [{ id := 0, post_id := 0, url := "https://github.com/org/repo",
         link_type := "github" }],
    snapshots :=
      [{ id := 0, post_id := 0, snapshot_date := 1, total_reactions := 5,
         reactions_json := [], views := none, forwards := none }],
    next_post_id := 1, next_link_id := 1, next_snap_id := 1 }

/-- The post returned for `c5DB`. -/
def c5Post : TopPost :=
  { channel_title := "A", channel_username := none, message_id := 11,
    post_url := none, post_datetime := 100, message_text := none,
    latest_reactions := 5, reactions_growth := 0, latest_views := none,
    latest_forwards := none, github_links := ["https://github.com/org/repo"],
    research_links := [], article_links := [] }

/-- Witness for `get_top_posts_amended` at concrete inputs (limit 5). -/
theorem get_top_posts_amended_witness :
    ((get_top_posts c5DB 2 7 5 true false true).length : Int) ≤ 5 ∧
    c5Post ∈ get_top_posts c5DB 2 7 5 true false true ∧
    c5Post.github_links ≠ [] :=
  ⟨(get_top_posts_amended c5DB 2 7 5 true false true).2.2.1 (by decide),
   by decide,
   (get_top_posts_amended c5DB 2 7 5 true false true).2.2.2 c5Post (by decide) rfl⟩

/-- C5 is refuted as stated: with `limit = 0` the result loop appends the
first passing candidate before checking `len(result) >= limit`, so
`get_top_posts` returns one post — not a prefix of length at most the
requested `limit`. -/
theorem get_top_posts_counterexample :
    get_top_posts c5DB 2 7 0 true false true = [c5Post] ∧
    (get_top_posts c5DB 2 7 0 true false true).length = 1 ∧
    ¬(((get_top_posts c5DB 2 7 0 true false true).length : Int) ≤ 0) := by
  refine ⟨by decide, by decide, by decide⟩

/-- Witness for `scrape_lookback_amended` on a run with one known and one
unexpected resolution failure and one successful channel. -/
theorem scrape_lookback_amended_witness :
    ∃ stats : ScrapeStats,
      scrape_lookback [ChannelEvent.resolveKnownFail, ChannelEvent.resolveUnexpectedFail,
        ChannelEvent.ok 5] = Except.ok stats ∧
      stats.channels_total =
        (([ChannelEvent.resolveKnownFail, ChannelEvent.resolveUnexpectedFail,
          ChannelEvent.ok 5] : List ChannelEvent).length : Int) ∧
      stats.channels_ok = (([ChannelEvent.resolveKnownFail,
        ChannelEvent.resolveUnexpectedFail,
        ChannelEvent.ok 5].countP isOkEvent : Nat) : Int) ∧
      stats.channels_failed = (([ChannelEvent.resolveKnownFail,
        ChannelEvent.resolveUnexpectedFail,
        ChannelEvent.ok 5].countP isResolveFail : Nat) : Int) ∧
      stats.posts_processed =
        (([ChannelEvent.resolveKnownFail, ChannelEvent.resolveUnexpectedFail,
          ChannelEvent.ok 5].map eventPosts).sum) ∧
      stats.channels_ok + stats.channels_failed = stats.channels_total :=
  scrape_lookback_amended
    [ChannelEvent.resolveKnownFail, ChannelEvent.resolveUnexpectedFail, ChannelEvent.ok 5]
    (by decide)

/-- C1 is refuted as stated: an unexpected error raised while processing a
channel's messages (after resolution) is not caught — in `service.py` only
the `get_entity` call is inside a `try`/`except` — so the run aborts, the
remaining channel is never processed, and no `ScrapeStats` is produced. -/
theorem scrape_lookback_counterexample :
    scrape_lookback [ChannelEvent.processCrash, ChannelEvent.ok 5] = Except.error () ∧
    ∀ stats : ScrapeStats,
      scrape_lookback [ChannelEvent.processCrash, ChannelEvent.ok 5] ≠ Except.ok stats := by
  refine ⟨rfl, ?_⟩
  intro stats h
  have h' : (Except.error () : Except Unit ScrapeStats) = Except.ok stats := h
  cases h'
